import Mathlib

/-!
# Dual-ledger balance reconciler and precompiled bank bridge

A shallow embedding of `x/evm/state/balance.go` (the `StateDBImpl` balance
operations) and `precompiles/bank/bank.go` (the bank precompile), together with
the statements proved about them.  The pending-nonce sequencer of
`x/evm/keeper`, of which only `keeper_test.go` is embedded, is modelled from
the specification and checked against the cases of that test.

Conventions of the embedding:

* `*big.Int` is `Int`; `uint64` is a `Nat` with explicit `% 2 ^ 64` where the
  Go arithmetic wraps; `[]byte` is a `List Nat`.
* Go methods that mutate their receiver or the stores reachable through
  `sdk.Context` take the state and return the new state.
* The native ledger (cosmos-sdk bank keeper) is an external collaborator: it is
  an interface `BankKeeper β` over an abstract ledger state `β`.  Every call
  issued to it is appended to `Context.calls`, so that "no transfer was
  invoked" and "exactly one transfer was issued" are statements about the
  state.  `Ledger` / `Ledger.keeper` is one concrete ledger used to run the
  code on concrete inputs.
-/

set_option autoImplicit false

namespace SeiEvm

/-! ## Basic types -/

/-- A `common.Address`: the 20 bytes read as a big-endian number; `common.Address{}` is `0`. -/
abbrev Address := Nat

/-- A `[]byte`. -/
abbrev Bytes := List Nat

/-- An `sdk.AccAddress` (a byte string). -/
abbrev AccAddress := List Nat

/-- The constant `math.MaxUint64`. -/
def MaxUint64 : Nat := 2 ^ 64 - 1

/-- The method `(*big.Int).Uint64`: the low 64 bits of the absolute value. -/
def Uint64 (x : Int) : Nat := x.natAbs % 2 ^ 64

/-- The Go conversion `int64(u)` of a `uint64`: reinterpretation in two's complement. -/
def toInt64 (u : Nat) : Int :=
  if u % 2 ^ 64 < 2 ^ 63 then ((u % 2 ^ 64 : Nat) : Int) else ((u % 2 ^ 64 : Nat) : Int) - 2 ^ 64

/-- The method `(*big.Int).Bytes` on a magnitude: big-endian bytes, no leading zero, empty for `0`. -/
def bigBytes (n : Nat) : Bytes := (Nat.digits 256 n).reverse

/-- The method `(*big.Int).SetBytes`: the big-endian unsigned value of a byte string. -/
def bigSetBytes (bz : Bytes) : Nat := Nat.ofDigits 256 bz.reverse

/-- An `sdk.Coin`. -/
structure Coin where
  denom : String
  amount : Int
deriving DecidableEq, Repr

/-- The coin that `sdk.NewCoin(denom, sdk.NewIntFromBigInt(amt))`, and `sdk.NewCoins` over that
one coin, build when they return: the pairing of the denomination with the amount.  The two
constructors (cosmos-sdk) panic instead of returning when `coinConstructible denom amt` is false;
`send`, whose denomination and amount come from the call data, checks it before building the
coin.  In `balance.go` the denomination is the chain's base denomination and the amount is
positive (or, in `CheckBalance`, non-negative). -/
def NewCoin (denom : String) (amt : Int) : Coin := { denom := denom, amount := amt }

/-- A character allowed after the first one in a coin denomination: an ASCII letter or digit, or
one of `/`, `:`, `.`, `_`, `-` (codes 47, 58, 46, 95, 45). -/
def isDenomChar (c : Char) : Bool :=
  c.isAlphanum || c.toNat = 47 || c.toNat = 58 || c.toNat = 46 || c.toNat = 95 || c.toNat = 45

/-- The check `sdk.ValidateDenom` (cosmos-sdk): the denomination matches
`[a-zA-Z][a-zA-Z0-9/:._-]{2,127}`. -/
def validDenom (denom : String) : Bool :=
  match denom.data with
  | [] => false
  | c :: cs => c.isAlpha && decide (2 ≤ cs.length) && decide (cs.length ≤ 127) && cs.all isDenomChar

/-- Whether `sdk.NewCoin(denom, sdk.NewIntFromBigInt(amt))` returns: `sdk.NewIntFromBigInt` panics
on an integer of more than 256 bits, and `sdk.NewCoin` panics on a denomination that is not valid
and on a negative amount. -/
def coinConstructible (denom : String) (amt : Int) : Bool :=
  decide (amt.natAbs < 2 ^ 256) && validDenom denom && decide (0 ≤ amt)

/-- The constant `types.ModuleName` of the EVM module (declared in `x/evm/types`). -/
def ModuleName : String := "evm"

/-- The key `TotalUnassociatedBalanceKey` of the conservation counter in the transient module
state.  Modelled from the spec: the constant is declared outside the two files embedded here; only
its identity as a store key matters. -/
def TotalUnassociatedBalanceKey : Bytes := [1]

/-- An error returned by the native ledger. -/
inductive LedgerError where
  | insufficientFunds
  | other (code : Nat)
deriving DecidableEq, Repr

/-- The Go `error` values produced by the two files, with the data their messages are formatted
from, and the errors handed back by the native ledger and the ABI packer. -/
inductive Error where
  /-- Message: "insufficient balance of %d in %s for a %s subtraction". -/
  | insufficientBalance (balance : Nat) (evmAddr : Address) (amt : Int)
  /-- Message: "crediting %s to %s with an existing balance of %d would cause overflow". -/
  | overflow (amt : Int) (evmAddr : Address) (balance : Nat)
  /-- Message: "insufficient module balance to facilitate AddBalance". -/
  | insufficientModuleBalance
  /-- Message: "should not call CheckBalance if there is already an error during execution". -/
  | checkAfterError
  /-- Message: "balance check failed. current balance: %s, total unassociated balance: %s". -/
  | balanceCheckFailed (currentModuleBalance totalUnassociatedBalance : Int)
  /-- Message: "send requires exactly 4 arguments". -/
  | sendArity
  /-- Message: "invalid denom". -/
  | invalidDenom
  /-- Message: "invalid amount". -/
  | invalidAmount
  /-- Message: "invalid addr". -/
  | invalidAddr
  /-- Message: "address does not have association". -/
  | noAssociation
  /-- An error of the native ledger, passed on unchanged. -/
  | ledger (e : LedgerError)
  /-- An error of `abi.Arguments.Pack`. -/
  | abiPack
deriving DecidableEq, Repr

/-- A call issued to the native ledger. -/
inductive BankCall where
  | SendCoins (fromAddr toAddr : AccAddress) (amt : Coin)
  | SendCoinsFromAccountToModule (senderAddr : AccAddress) (recipientModule : String) (amt : Coin)
  | SendCoinsFromModuleToAccount (senderModule : String) (recipientAddr : AccAddress) (amt : Coin)
  | BurnCoins (moduleName : String) (amt : Coin)
deriving DecidableEq, Repr

/-- The interface `pcommon.BankKeeper` over an abstract ledger state `β`.  A mutating call returns
its error (if any) and the ledger state it leaves behind. -/
structure BankKeeper (β : Type) where
  SendCoins : β → AccAddress → AccAddress → Coin → Option LedgerError × β
  SendCoinsFromAccountToModule : β → AccAddress → String → Coin → Option LedgerError × β
  SendCoinsFromModuleToAccount : β → String → AccAddress → Coin → Option LedgerError × β
  BurnCoins : β → String → Coin → Option LedgerError × β
  GetBalance : β → AccAddress → String → Coin
  HasBalance : β → AccAddress → Coin → Bool

/-- The state reachable through an `sdk.Context`: the native ledger, the trace of calls issued to
it, the association index, the EVM-only balance entries, the transient module-state store and the
base denomination parameter.  A value of the transient store is its first byte and the rest. -/
structure Context (β : Type) where
  bank : β
  calls : List BankCall
  assoc : Address → Option AccAddress
  balances : Address → Option Nat
  transient : Bytes → Option (Nat × Bytes)
  baseDenom : String

/-- The EVM keeper: its bank keeper and the account keeper's module-address resolution. -/
structure Keeper (β : Type) where
  bankKeeper : BankKeeper β
  moduleAddress : String → AccAddress

/-- The struct `StateDBImpl`, restricted to the fields `balance.go` uses. -/
structure StateDBImpl (β : Type) where
  ctx : Context β
  k : Keeper β
  err : Option Error

variable {β : Type}

/-! ## Ledger calls, recorded in the trace -/

/-- Call `SendCoins` on the ledger and record the call. -/
def Context.SendCoins (bk : BankKeeper β) (ctx : Context β) (fromAddr toAddr : AccAddress)
    (amt : Coin) : Option LedgerError × Context β :=
  let r := bk.SendCoins ctx.bank fromAddr toAddr amt
  (r.1, { ctx with bank := r.2, calls := ctx.calls ++ [BankCall.SendCoins fromAddr toAddr amt] })

/-- Call `SendCoinsFromAccountToModule` on the ledger and record the call. -/
def Context.SendCoinsFromAccountToModule (bk : BankKeeper β) (ctx : Context β)
    (senderAddr : AccAddress) (recipientModule : String) (amt : Coin) :
    Option LedgerError × Context β :=
  let r := bk.SendCoinsFromAccountToModule ctx.bank senderAddr recipientModule amt
  (r.1, { ctx with
    bank := r.2,
    calls := ctx.calls ++ [BankCall.SendCoinsFromAccountToModule senderAddr recipientModule amt] })

/-- Call `SendCoinsFromModuleToAccount` on the ledger and record the call. -/
def Context.SendCoinsFromModuleToAccount (bk : BankKeeper β) (ctx : Context β)
    (senderModule : String) (recipientAddr : AccAddress) (amt : Coin) :
    Option LedgerError × Context β :=
  let r := bk.SendCoinsFromModuleToAccount ctx.bank senderModule recipientAddr amt
  (r.1, { ctx with
    bank := r.2,
    calls := ctx.calls ++ [BankCall.SendCoinsFromModuleToAccount senderModule recipientAddr amt] })

/-- Call `BurnCoins` on the ledger and record the call. -/
def Context.BurnCoins (bk : BankKeeper β) (ctx : Context β) (moduleName : String) (amt : Coin) :
    Option LedgerError × Context β :=
  let r := bk.BurnCoins ctx.bank moduleName amt
  (r.1, { ctx with bank := r.2, calls := ctx.calls ++ [BankCall.BurnCoins moduleName amt] })

/-! ## Keeper operations used by `balance.go` -/

/-- Modelled from the spec: `Keeper.GetSeiAddress` (defined in `x/evm/keeper`, outside the two files embedded here) is the
Association Index lookup `Lookup(evmAddress) -> (nativeAddress, found)`. -/
def Keeper.GetSeiAddress (_k : Keeper β) (ctx : Context β) (evmAddr : Address) :
    Option AccAddress :=
  ctx.assoc evmAddr

/-- Modelled from the spec: `Keeper.GetBaseDenom` (defined in `x/evm/keeper`, outside the two files embedded here) returns the
chain's native token symbol. -/
def Keeper.GetBaseDenom (_k : Keeper β) (ctx : Context β) : String :=
  ctx.baseDenom

/-- Modelled from the spec: `Keeper.GetBalance` (defined in `x/evm/keeper`, outside the two files embedded here) is
`GetBalanceEntry(address) -> uint64`; no entry reads as zero. -/
def Keeper.GetBalance (_k : Keeper β) (ctx : Context β) (evmAddr : Address) : Nat :=
  (ctx.balances evmAddr).getD 0

/-- Modelled from the spec: `Keeper.SetOrDeleteBalance` (defined in `x/evm/keeper`, outside the two files embedded here) is
`SetBalanceEntry(address, value)`, the entry being deleted when the value is zero. -/
def Keeper.SetOrDeleteBalance (_k : Keeper β) (ctx : Context β) (evmAddr : Address)
    (value : Nat) : Context β :=
  { ctx with
    balances := fun a => if a = evmAddr then (if value = 0 then none else some value)
                         else ctx.balances a }

/-- Modelled from the spec: `Keeper.GetModuleBalance` (defined in `x/evm/keeper`, outside the two files embedded here) is the native
ledger's view of the pooled module account balance, in the base denomination. -/
def Keeper.GetModuleBalance (k : Keeper β) (ctx : Context β) : Int :=
  (k.bankKeeper.GetBalance ctx.bank (k.moduleAddress ModuleName) (k.GetBaseDenom ctx)).amount

/-! ## `balance.go` -/

/-- The function `GetBigIntTransientModuleState`. -/
def StateDBImpl.GetBigIntTransientModuleState (s : StateDBImpl β) (key : Bytes) : Int :=
  match s.ctx.transient key with
  | none => 0
  | some bz =>
    let res : Int := (bigSetBytes bz.2 : Nat)
    if bz.1 ≠ 0 then -res else res

/-- The function `AddBigIntTransientModuleState`. -/
def StateDBImpl.AddBigIntTransientModuleState (s : StateDBImpl β) (delta : Int) (key : Bytes) :
    StateDBImpl β :=
  let old := s.GetBigIntTransientModuleState key
  let new := old + delta
  let sign : Nat := if new < 0 then 1 else 0
  { s with ctx := { s.ctx with
      transient := fun k => if k = key then some (sign, bigBytes new.natAbs)
                            else s.ctx.transient k } }

mutual

/-- The function `SubBalance`. -/
def StateDBImpl.SubBalance (s : StateDBImpl β) (evmAddr : Address) (amt : Int) : StateDBImpl β :=
  if _h0 : amt = 0 then s
  else if _hneg : amt < 0 then StateDBImpl.AddBalance s evmAddr (-amt)
  else
    match s.k.GetSeiAddress s.ctx evmAddr with
    | some seiAddr =>
      let coins := NewCoin (s.k.GetBaseDenom s.ctx) amt
      let r := s.ctx.SendCoinsFromAccountToModule s.k.bankKeeper seiAddr ModuleName coins
      { s with ctx := r.2, err := r.1.map Error.ledger }
    | none =>
      let balance := s.k.GetBalance s.ctx evmAddr
      if Uint64 amt > balance then
        { s with err := some (Error.insufficientBalance balance evmAddr amt) }
      else
        let s1 := s.AddBigIntTransientModuleState (-amt) TotalUnassociatedBalanceKey
        { s1 with
          ctx := s1.k.SetOrDeleteBalance s1.ctx evmAddr ((balance + 2 ^ 64 - Uint64 amt) % 2 ^ 64) }
termination_by (if amt < 0 then 1 else 0 : Nat)
decreasing_by
  have h1 : ¬ (-amt < 0) := by omega
  simp [_hneg, h1]

/-- The function `AddBalance`. -/
def StateDBImpl.AddBalance (s : StateDBImpl β) (evmAddr : Address) (amt : Int) : StateDBImpl β :=
  if _h0 : amt = 0 then s
  else if _hneg : amt < 0 then StateDBImpl.SubBalance s evmAddr (-amt)
  else
    match s.k.GetSeiAddress s.ctx evmAddr with
    | some seiAddr =>
      let coin := NewCoin (s.k.GetBaseDenom s.ctx) amt
      let coins := coin
      let moduleAccAddr := s.k.moduleAddress ModuleName
      if ¬ s.k.bankKeeper.HasBalance s.ctx.bank moduleAccAddr coin then
        { s with err := some Error.insufficientModuleBalance }
      else
        let r := s.ctx.SendCoinsFromModuleToAccount s.k.bankKeeper ModuleName seiAddr coins
        { s with ctx := r.2, err := r.1.map Error.ledger }
    | none =>
      let balance := s.k.GetBalance s.ctx evmAddr
      if MaxUint64 - balance < Uint64 amt then
        { s with err := some (Error.overflow amt evmAddr balance) }
      else
        let s1 := s.AddBigIntTransientModuleState amt TotalUnassociatedBalanceKey
        { s1 with
          ctx := s1.k.SetOrDeleteBalance s1.ctx evmAddr ((balance + Uint64 amt) % 2 ^ 64) }
termination_by (if amt < 0 then 1 else 0 : Nat)
decreasing_by
  have h1 : ¬ (-amt < 0) := by omega
  simp [_hneg, h1]

end

/-- The function `GetBalance` of `StateDBImpl`. -/
def StateDBImpl.GetBalance (s : StateDBImpl β) (evmAddr : Address) : Int :=
  match s.k.GetSeiAddress s.ctx evmAddr with
  | some seiAddr => (s.k.bankKeeper.GetBalance s.ctx.bank seiAddr (s.k.GetBaseDenom s.ctx)).amount
  | none => toInt64 (s.k.GetBalance s.ctx evmAddr)

/-- The function `CheckBalance`: the returned error and the state left behind. -/
def StateDBImpl.CheckBalance (s : StateDBImpl β) : Option Error × StateDBImpl β :=
  if s.err ≠ none then (some Error.checkAfterError, s)
  else
    let totalUnassociatedBalance := s.GetBigIntTransientModuleState TotalUnassociatedBalanceKey
    let currentModuleBalance := s.k.GetModuleBalance s.ctx
    if totalUnassociatedBalance > currentModuleBalance then
      (some (Error.balanceCheckFailed currentModuleBalance totalUnassociatedBalance), s)
    else
      let toBeBurned := currentModuleBalance - totalUnassociatedBalance
      let r := s.ctx.BurnCoins s.k.bankKeeper ModuleName (NewCoin (s.k.GetBaseDenom s.ctx) toBeBurned)
      (r.1.map Error.ledger, { s with ctx := r.2 })

/-! ## `precompiles/bank/bank.go` -/

/-- A value of Go type `interface{}` as it occurs in a decoded argument list. -/
inductive Arg where
  | address (a : Address)
  | string (s : String)
  | bigInt (n : Int)
  | bool (b : Bool)
deriving DecidableEq, Repr

/-- The ABI types of the outputs of the bank precompile's methods. -/
inductive AbiType where
  | bool
  | uint256
deriving DecidableEq, Repr

/-- An `abi.Method`, restricted to its name and its output types. -/
structure Method where
  Name : String
  Outputs : List AbiType
deriving DecidableEq, Repr

/-- A 32-byte big-endian ABI word holding `n` (taken modulo `2 ^ 256`). -/
def abiWord (n : Nat) : Bytes :=
  let bz := bigBytes (n % 2 ^ 256)
  List.replicate (32 - bz.length) 0 ++ bz

/-- Packing of one value against one ABI type (go-ethereum `abi`): a `bool` is the word `1` or
`0`, a `*big.Int` for `uint256` is its two's complement word; any other pairing is a type error. -/
def packElement : AbiType → Arg → Except Error Bytes
  | AbiType.bool, Arg.bool b => Except.ok (abiWord (if b then 1 else 0))
  | AbiType.uint256, Arg.bigInt n => Except.ok (abiWord (n % 2 ^ 256).toNat)
  | _, _ => Except.error Error.abiPack

/-- Packing of a list of values against a list of ABI types; the lengths must agree. -/
def packArguments : List AbiType → List Arg → Except Error Bytes
  | [], [] => Except.ok []
  | t :: ts, v :: vs =>
    match packElement t v, packArguments ts vs with
    | Except.ok w, Except.ok ws => Except.ok (w ++ ws)
    | Except.error e, _ => Except.error e
    | _, Except.error e => Except.error e
  | _, _ => Except.error Error.abiPack

/-- The call `method.Outputs.Pack(vals...)`. -/
def Method.OutputsPack (method : Method) (vals : List Arg) : Except Error Bytes :=
  packArguments method.Outputs vals

/-- The constant `SendMethod`. -/
def SendMethod : String := "send"

/-- The constant `BalanceMethod`. -/
def BalanceMethod : String := "balance"

/-- An `abi.ABI` (go-ethereum), restricted to `MethodById`: the lookup of a method by a 4-byte
selector; `none` is the lookup's error. -/
structure ABI where
  MethodById : Bytes → Option Method

/-- The embedded struct `pcommon.Precompile`: the ABI, and the base gas cost `RequiredGas(input,
isTransaction)`, which is declared in `precompiles/common` and taken here as given. -/
structure CommonPrecompile where
  ABI : ABI
  RequiredGas : Bytes → Bool → Nat

/-- The struct `Precompile`: the embedded `pcommon.Precompile` and the two keepers. -/
structure Precompile (β : Type) where
  common : CommonPrecompile
  bankKeeper : BankKeeper β
  evmKeeper : Keeper β

/-- What a Go call of result type `([]byte, error)` produces: the pair (as an `Except`) together
with the context it leaves behind. -/
abbrev CallResult (β : Type) := Except Error Bytes × Context β

/-- The function `accAddressFromArg`. -/
def Precompile.accAddressFromArg (p : Precompile β) (ctx : Context β) (arg : Arg) :
    Except Error AccAddress :=
  match arg with
  | Arg.address addr =>
    if addr = 0 then Except.error Error.invalidAddr
    else
      match p.evmKeeper.GetSeiAddress ctx addr with
      | none => Except.error Error.noAssociation
      | some seiAddr => Except.ok seiAddr
  | _ => Except.error Error.invalidAddr

/-- The function `send`.  The arity check followed by the indexing `args[0]` .. `args[3]` is the
match on a list of exactly four elements.  The coin is built, after both addresses are resolved,
as an argument of the `SendCoins` call; `none` is the Go runtime panic of its constructors. -/
def Precompile.send (p : Precompile β) (ctx : Context β) (method : Method) (args : List Arg) :
    Option (CallResult β) :=
  match args with
  | [arg0, arg1, arg2, arg3] =>
    match arg2 with
    | Arg.string denom =>
      if denom = "" then some (Except.error Error.invalidDenom, ctx)
      else
        match arg3 with
        | Arg.bigInt amount =>
          if amount = 0 then some (method.OutputsPack [Arg.bool true], ctx)
          else
            match p.accAddressFromArg ctx arg0 with
            | Except.error err => some (Except.error err, ctx)
            | Except.ok senderSeiAddr =>
              match p.accAddressFromArg ctx arg1 with
              | Except.error err => some (Except.error err, ctx)
              | Except.ok receiverSeiAddr =>
                if ¬ coinConstructible denom amount then none
                else
                  match ctx.SendCoins p.bankKeeper senderSeiAddr receiverSeiAddr
                      (NewCoin denom amount) with
                  | (some err, ctx1) => some (Except.error (Error.ledger err), ctx1)
                  | (none, ctx1) => some (method.OutputsPack [Arg.bool true], ctx1)
        | _ => some (Except.error Error.invalidAmount, ctx)
    | _ => some (Except.error Error.invalidDenom, ctx)
  | _ => some (Except.error Error.sendArity, ctx)

/-- The function `balance`.  It indexes `args[0]` and `args[1]` without an arity check; `none` is
the Go runtime panic of an index out of range. -/
def Precompile.balance (p : Precompile β) (ctx : Context β) (method : Method) (args : List Arg) :
    Option (CallResult β) :=
  match args with
  | [] => none
  | arg0 :: rest =>
    match p.accAddressFromArg ctx arg0 with
    | Except.error err => some (Except.error err, ctx)
    | Except.ok addr =>
      match rest with
      | [] => none
      | arg1 :: _ =>
        match arg1 with
        | Arg.string denom =>
          if denom = "" then some (Except.error Error.invalidDenom, ctx)
          else
            some (method.OutputsPack
              [Arg.bigInt (p.bankKeeper.GetBalance ctx.bank addr denom).amount], ctx)
        | _ => some (Except.error Error.invalidDenom, ctx)

/-- The function `IsTransaction`. -/
def Precompile.IsTransaction (method : String) : Bool :=
  if method = SendMethod then true else false

/-- The function `RequiredGas`.  The slice `input[:4]` of an input shorter than four bytes is out
of range (a `[]byte` being a list, its capacity is its length); `none` is that runtime panic. -/
def Precompile.RequiredGas (p : Precompile β) (input : Bytes) : Option Nat :=
  if input.length < 4 then none
  else
    let methodID := input.take 4
    match p.common.ABI.MethodById methodID with
    | none => some 0
    | some method => some (p.common.RequiredGas input (Precompile.IsTransaction method.Name))

/-! ## A concrete native ledger -/

/-- A ledger state: the balance of every account in every denomination. -/
structure Ledger where
  balances : AccAddress → String → Nat

/-- Move `amt` from one account to another; fails when the sender holds less (or the amount is
negative), leaving the ledger as it was. -/
def Ledger.transfer (l : Ledger) (fromAddr toAddr : AccAddress) (amt : Coin) :
    Option LedgerError × Ledger :=
  if 0 ≤ amt.amount ∧ amt.amount ≤ (l.balances fromAddr amt.denom : Int) then
    let debited : AccAddress → String → Nat := fun a d =>
      if a = fromAddr ∧ d = amt.denom then l.balances a d - amt.amount.toNat else l.balances a d
    (none, { balances := fun a d =>
      if a = toAddr ∧ d = amt.denom then debited a d + amt.amount.toNat else debited a d })
  else (some LedgerError.insufficientFunds, l)

/-- Burn `amt` from an account: succeeds exactly when the amount does not exceed what the account
holds, and then reduces the holding by that amount. -/
def Ledger.burn (l : Ledger) (addr : AccAddress) (amt : Coin) : Option LedgerError × Ledger :=
  if 0 ≤ amt.amount ∧ amt.amount ≤ (l.balances addr amt.denom : Int) then
    (none, { balances := fun a d =>
      if a = addr ∧ d = amt.denom then l.balances a d - amt.amount.toNat else l.balances a d })
  else (some LedgerError.insufficientFunds, l)

/-- The bank keeper over `Ledger`, module accounts being resolved by `moduleAddress`. -/
def Ledger.keeper (moduleAddress : String → AccAddress) : BankKeeper Ledger where
  SendCoins l fromAddr toAddr amt := l.transfer fromAddr toAddr amt
  SendCoinsFromAccountToModule l senderAddr recipientModule amt :=
    l.transfer senderAddr (moduleAddress recipientModule) amt
  SendCoinsFromModuleToAccount l senderModule recipientAddr amt :=
    l.transfer (moduleAddress senderModule) recipientAddr amt
  BurnCoins l moduleName amt := l.burn (moduleAddress moduleName) amt
  GetBalance l addr denom := { denom := denom, amount := (l.balances addr denom : Int) }
  HasBalance l addr amt := decide (amt.amount ≤ (l.balances addr amt.denom : Int))


/-! ## Sequences of balance mutations and example states -/

/-- One balance mutation issued on a `StateDBImpl`. -/
inductive BalanceCall where
  | AddBalance (evmAddr : Address) (amt : Int)
  | SubBalance (evmAddr : Address) (amt : Int)
deriving DecidableEq, Repr

/-- Issue one balance mutation. -/
def StateDBImpl.call (s : StateDBImpl β) : BalanceCall → StateDBImpl β
  | BalanceCall.AddBalance evmAddr amt => s.AddBalance evmAddr amt
  | BalanceCall.SubBalance evmAddr amt => s.SubBalance evmAddr amt

/-- Issue a sequence of balance mutations, in order. -/
def StateDBImpl.callAll (s : StateDBImpl β) (calls : List BalanceCall) : StateDBImpl β :=
  calls.foldl StateDBImpl.call s

/-- The signed amount a balance mutation applies: `+amt` for `AddBalance`, `-amt` for
`SubBalance`. -/
def BalanceCall.delta : BalanceCall → Int
  | BalanceCall.AddBalance _ amt => amt
  | BalanceCall.SubBalance _ amt => -amt

/-- The address a balance mutation is issued on. -/
def BalanceCall.evmAddr : BalanceCall → Address
  | BalanceCall.AddBalance evmAddr _ => evmAddr
  | BalanceCall.SubBalance evmAddr _ => evmAddr

/-- The Conservation Counter of a state. -/
def StateDBImpl.counter (s : StateDBImpl β) : Int :=
  s.GetBigIntTransientModuleState TotalUnassociatedBalanceKey

/-- Module-address resolution of the example states: the module account is `[0]`. -/
def exampleModuleAddress : String → AccAddress := fun _ => [0]

/-- The keeper of the example states, over the concrete ledger. -/
def exampleKeeper : Keeper Ledger :=
  { bankKeeper := Ledger.keeper exampleModuleAddress, moduleAddress := exampleModuleAddress }

/-- An example state: base denomination `usei`; EVM address `2` is associated with the native
account `[2]`, which holds `5 usei`, and EVM address `3` with the native account `[3]`, which
holds nothing; every other EVM address is unassociated; the pooled module account `[0]` holds
`pool`; the EVM address `1` has the balance entry `entry` (none when `0`); the transient store is
empty and no error is recorded. -/
def exampleState (pool entry : Nat) : StateDBImpl Ledger :=
  { ctx :=
      { bank := { balances := fun a d =>
          if d = "usei" then (if a = [2] then 5 else if a = [0] then pool else 0) else 0 }
        calls := []
        assoc := fun a => if a = 2 then some [2] else if a = 3 then some [3] else none
        balances := fun a => if a = 1 then (if entry = 0 then none else some entry) else none
        transient := fun _ => none
        baseDenom := "usei" }
    k := exampleKeeper
    err := none }

/-- Modelled from the spec: the ABI entry of `send` (`abi.json` is outside the two files embedded here);
`send` returns a success flag. -/
def sendMethodAbi : Method := { Name := SendMethod, Outputs := [AbiType.bool] }

/-- Modelled from the spec: the ABI entry of `balance` (`abi.json` is outside the two files
embedded here); `balance` returns an integer balance. -/
def balanceMethodAbi : Method := { Name := BalanceMethod, Outputs := [AbiType.uint256] }

/-- An example ABI: the selector `[1, 1, 1, 1]` is `send`, `[2, 2, 2, 2]` is `balance`, every
other selector is unknown. -/
def exampleABI : ABI :=
  { MethodById := fun sel =>
      if sel = [1, 1, 1, 1] then some sendMethodAbi
      else if sel = [2, 2, 2, 2] then some balanceMethodAbi
      else none }

/-- An example base gas cost: a flat cost plus a cost per byte of the arguments, higher for a
transaction method. -/
def exampleRequiredGas (input : Bytes) (isTransaction : Bool) : Nat :=
  if isTransaction then 2000 + 30 * (input.length - 4) else 1000 + 3 * (input.length - 4)

/-- The bank precompile over the concrete ledger of the example states. -/
def examplePrecompile : Precompile Ledger :=
  { common := { ABI := exampleABI, RequiredGas := exampleRequiredGas }
    bankKeeper := Ledger.keeper exampleModuleAddress
    evmKeeper := exampleKeeper }

/-! ## Delegation between the two mutations -/

mutual

/-- The number of calls `SubBalance` makes to `AddBalance`, directly or through further
delegation, on the amount `amt`: the control flow of `SubBalance` with everything but the sign
tests and the delegating call removed. -/
def SubBalanceDelegations (amt : Int) : Nat :=
  if _h0 : amt = 0 then 0
  else if _hneg : amt < 0 then AddBalanceDelegations (-amt) + 1
  else 0
termination_by (if amt < 0 then 1 else 0 : Nat)
decreasing_by
  have h1 : ¬ (-amt < 0) := by omega
  simp [_hneg, h1]

/-- The number of calls `AddBalance` makes to `SubBalance`, directly or through further
delegation, on the amount `amt`. -/
def AddBalanceDelegations (amt : Int) : Nat :=
  if _h0 : amt = 0 then 0
  else if _hneg : amt < 0 then SubBalanceDelegations (-amt) + 1
  else 0
termination_by (if amt < 0 then 1 else 0 : Nat)
decreasing_by
  have h1 : ¬ (-amt < 0) := by omega
  simp [_hneg, h1]

end

/-! ## The pending-nonce sequencer -/

/-- A `tmtypes.TxKey`, the identifier of a pending transaction: its bytes read as a number. -/
abbrev TxKey := Nat

/-- Modelled from the spec: a Pending Nonce Record (the sequencer's sources in `x/evm/keeper` are
outside the two files embedded here) holds the account address and the claimed sequence
number. -/
structure PendingRecord where
  address : Address
  nonce : Nat
deriving DecidableEq, Repr

/-- Modelled from the spec: the state of the Pending Nonce Sequencer (its sources in
`x/evm/keeper` are outside the two files embedded here).  Per account the committed nonce, which
reads as zero when none is stored, and the collection of pending sequence numbers; per
pending-transaction identifier the record registered under it. -/
structure NonceKeeper where
  committed : Address → Option Nat
  keyToNonce : TxKey → Option PendingRecord
  pendingNonces : Address → List Nat

/-- Modelled from the spec: `GetCommittedNonce(address) -> uint64`, the committed nonce `base` of
an account (`GetNonce` in `keeper_test.go` is set through `SetNonce`; zero when none is
stored). -/
def NonceKeeper.GetNonce (k : NonceKeeper) (addr : Address) : Nat :=
  (k.committed addr).getD 0

/-- Modelled from the spec: `SetNonce`, by which the durable commit path sets the committed
nonce of an account. -/
def NonceKeeper.SetNonce (k : NonceKeeper) (addr : Address) (nonce : Nat) : NonceKeeper :=
  { k with committed := fun a => if a = addr then some nonce else k.committed a }

/-- Modelled from the spec: `AddPendingNonce(txID, address, nonce)` registers a candidate
sequence number for an account under the identifier; no uniqueness is enforced, duplicates are
distinct entries of the account's collection. -/
def NonceKeeper.AddPendingNonce (k : NonceKeeper) (key : TxKey) (addr : Address) (nonce : Nat) :
    NonceKeeper :=
  { k with
    keyToNonce := fun t =>
      if t = key then some { address := addr, nonce := nonce } else k.keyToNonce t
    pendingNonces := fun a =>
      if a = addr then k.pendingNonces a ++ [nonce] else k.pendingNonces a }

/-- Modelled from the spec: `CompletePendingNonce(txID)` removes the record of the identifier
without affecting the committed nonce, and is a no-op on an unknown identifier.  Completion does
not reopen the gap (scenario "both completed" of the spec, case "completed nonces should also be
skipped" of `keeper_test.go`): the identifier is released and the sequence number stays
claimed. -/
def NonceKeeper.CompletePendingNonce (k : NonceKeeper) (key : TxKey) : NonceKeeper :=
  match k.keyToNonce key with
  | none => k
  | some _ => { k with keyToNonce := fun t => if t = key then none else k.keyToNonce t }

/-- Modelled from the spec: `ExpirePendingNonce(txID)` removes the record of the identifier and
is a no-op on an unknown identifier.  Expiration reopens the gap (scenario "`50` expired" of the
spec, case "hole created by expiration" of `keeper_test.go`): the identifier is released and its
sequence number leaves the account's collection. -/
def NonceKeeper.ExpirePendingNonce (k : NonceKeeper) (key : TxKey) : NonceKeeper :=
  match k.keyToNonce key with
  | none => k
  | some r =>
    { k with
      keyToNonce := fun t => if t = key then none else k.keyToNonce t
      pendingNonces := fun a =>
        if a = r.address then (k.pendingNonces a).erase r.nonce else k.pendingNonces a }

/-- Modelled from the spec: the upward scan of `CalculateNextNonce` through consecutive integers,
a candidate being taken when the account's collection holds exactly it; the first untaken
candidate is returned.  The scan is given `fuel` steps. -/
def NonceKeeper.scan (pending : List Nat) : Nat → Nat → Nat
  | 0, n => n
  | fuel + 1, n => if n ∈ pending then NonceKeeper.scan pending fuel (n + 1) else n

/-- Modelled from the spec: `CalculateNextNonce(address, pending)` returns the committed nonce
when `pending` is false, and otherwise the first untaken integer from the committed nonce
upward.  The scan is given one step more than the collection has entries, which is enough for it
to stop at an untaken candidate. -/
def NonceKeeper.CalculateNextNonce (k : NonceKeeper) (addr : Address) (pending : Bool) : Nat :=
  let nextNonce := k.GetNonce addr
  if ¬ pending then nextNonce
  else NonceKeeper.scan (k.pendingNonces addr) ((k.pendingNonces addr).length + 1) nextNonce

/-- One operation on the pending set of the sequencer. -/
inductive NonceOp where
  | AddPendingNonce (key : TxKey) (addr : Address) (nonce : Nat)
  | CompletePendingNonce (key : TxKey)
  | ExpirePendingNonce (key : TxKey)
deriving DecidableEq, Repr

/-- Apply one operation on the pending set. -/
def NonceKeeper.apply (k : NonceKeeper) : NonceOp → NonceKeeper
  | NonceOp.AddPendingNonce key addr nonce => k.AddPendingNonce key addr nonce
  | NonceOp.CompletePendingNonce key => k.CompletePendingNonce key
  | NonceOp.ExpirePendingNonce key => k.ExpirePendingNonce key

/-- Apply a sequence of operations on the pending set, in order. -/
def NonceKeeper.applyAll (k : NonceKeeper) (ops : List NonceOp) : NonceKeeper :=
  ops.foldl NonceKeeper.apply k

/-- Register the consecutive sequence numbers `nonce`, `nonce + 1`, ... for an account, one under
each of the given identifiers, in order. -/
def NonceKeeper.registerFrom (k : NonceKeeper) (addr : Address) : Nat → List TxKey → NonceKeeper
  | _, [] => k
  | nonce, key :: keys =>
    NonceKeeper.registerFrom (k.AddPendingNonce key addr nonce) addr (nonce + 1) keys

/-- Complete every one of the given identifiers, in order. -/
def NonceKeeper.completeAll (k : NonceKeeper) (keys : List TxKey) : NonceKeeper :=
  keys.foldl NonceKeeper.CompletePendingNonce k

/-- The sequencer of a fresh keeper (`MockEVMKeeper` in `keeper_test.go`): no committed nonce, no
pending entry. -/
def NonceKeeper.empty : NonceKeeper :=
  { committed := fun _ => none, keyToNonce := fun _ => none, pendingNonces := fun _ => [] }

/-- The sequencer state of the cases of `TestKeeper_CalculateNextNonce` that register two
consecutive nonces: the account `1` has the committed nonce `50` and the pending nonces `50` and
`51` under the identifiers `10` and `11`. -/
def exampleNonceKeeper : NonceKeeper :=
  ((NonceKeeper.empty.SetNonce 1 50).AddPendingNonce 10 1 50).AddPendingNonce 11 1 51

/-- The state `s1` differs from `s` at most in the native ledger, the trace of calls issued to it,
and the recorded error: the association index, the balance entries, the transient store, the
base denomination and the keeper are those of `s`. -/
def StateDBImpl.onlyLedgerAndErrChanged (s s1 : StateDBImpl β) : Prop :=
  s1 = { s with ctx := { s.ctx with bank := s1.ctx.bank, calls := s1.ctx.calls }, err := s1.err }

/-! ## Lemmas on the byte encoding and the transient store -/

theorem bigSetBytes_bigBytes (n : Nat) : bigSetBytes (bigBytes n) = n := by
  simp [bigSetBytes, bigBytes, Nat.ofDigits_digits]

theorem GetBigInt_AddBigInt (s : StateDBImpl β) (delta : Int) (key : Bytes) :
    (s.AddBigIntTransientModuleState delta key).GetBigIntTransientModuleState key
      = s.GetBigIntTransientModuleState key + delta := by
  simp only [StateDBImpl.AddBigIntTransientModuleState]
  generalize s.GetBigIntTransientModuleState key + delta = v
  simp only [StateDBImpl.GetBigIntTransientModuleState, if_true, bigSetBytes_bigBytes]
  by_cases hv : v < 0
  · simp [hv, abs_of_neg hv]
  · simp [hv, abs_of_nonneg (not_lt.mp hv)]

theorem counter_AddBigInt (s : StateDBImpl β) (delta : Int) :
    (s.AddBigIntTransientModuleState delta TotalUnassociatedBalanceKey).counter
      = s.counter + delta :=
  GetBigInt_AddBigInt s delta TotalUnassociatedBalanceKey

/-! ## Unfolding lemmas for the two mutations -/

theorem SubBalance_zero (s : StateDBImpl β) (evmAddr : Address) :
    s.SubBalance evmAddr 0 = s := by
  rw [StateDBImpl.SubBalance]; simp

theorem AddBalance_zero (s : StateDBImpl β) (evmAddr : Address) :
    s.AddBalance evmAddr 0 = s := by
  rw [StateDBImpl.AddBalance]; simp

theorem SubBalance_neg (s : StateDBImpl β) (evmAddr : Address) (amt : Int) (h : amt < 0) :
    s.SubBalance evmAddr amt = s.AddBalance evmAddr (-amt) := by
  rw [StateDBImpl.SubBalance]
  have h0 : amt ≠ 0 := by omega
  simp [h0, h]

theorem AddBalance_neg (s : StateDBImpl β) (evmAddr : Address) (amt : Int) (h : amt < 0) :
    s.AddBalance evmAddr amt = s.SubBalance evmAddr (-amt) := by
  rw [StateDBImpl.AddBalance]
  have h0 : amt ≠ 0 := by omega
  simp [h0, h]

theorem SubBalance_assoc (s : StateDBImpl β) (evmAddr : Address) (amt : Int) (h : 0 < amt)
    (seiAddr : AccAddress) (ha : s.ctx.assoc evmAddr = some seiAddr) :
    s.SubBalance evmAddr amt =
      { s with
        ctx := (s.ctx.SendCoinsFromAccountToModule s.k.bankKeeper seiAddr ModuleName
                  (NewCoin s.ctx.baseDenom amt)).2
        err := (s.ctx.SendCoinsFromAccountToModule s.k.bankKeeper seiAddr ModuleName
                  (NewCoin s.ctx.baseDenom amt)).1.map Error.ledger } := by
  rw [StateDBImpl.SubBalance]
  have h0 : amt ≠ 0 := by omega
  have h1 : ¬ amt < 0 := by omega
  simp [h0, h1, Keeper.GetSeiAddress, Keeper.GetBaseDenom, ha]

theorem SubBalance_unassoc (s : StateDBImpl β) (evmAddr : Address) (amt : Int) (h : 0 < amt)
    (ha : s.ctx.assoc evmAddr = none) :
    s.SubBalance evmAddr amt =
      if Uint64 amt > s.k.GetBalance s.ctx evmAddr then
        { s with err := some (Error.insufficientBalance (s.k.GetBalance s.ctx evmAddr) evmAddr amt) }
      else
        { s.AddBigIntTransientModuleState (-amt) TotalUnassociatedBalanceKey with
          ctx := s.k.SetOrDeleteBalance
            (s.AddBigIntTransientModuleState (-amt) TotalUnassociatedBalanceKey).ctx evmAddr
            ((s.k.GetBalance s.ctx evmAddr + 2 ^ 64 - Uint64 amt) % 2 ^ 64) } := by
  rw [StateDBImpl.SubBalance]
  have h0 : amt ≠ 0 := by omega
  have h1 : ¬ amt < 0 := by omega
  simp [h0, h1, Keeper.GetSeiAddress, ha]
  rfl

theorem AddBalance_assoc (s : StateDBImpl β) (evmAddr : Address) (amt : Int) (h : 0 < amt)
    (seiAddr : AccAddress) (ha : s.ctx.assoc evmAddr = some seiAddr) :
    s.AddBalance evmAddr amt =
      if ¬ s.k.bankKeeper.HasBalance s.ctx.bank (s.k.moduleAddress ModuleName)
            (NewCoin s.ctx.baseDenom amt) then
        { s with err := some Error.insufficientModuleBalance }
      else
        { s with
          ctx := (s.ctx.SendCoinsFromModuleToAccount s.k.bankKeeper ModuleName seiAddr
                    (NewCoin s.ctx.baseDenom amt)).2
          err := (s.ctx.SendCoinsFromModuleToAccount s.k.bankKeeper ModuleName seiAddr
                    (NewCoin s.ctx.baseDenom amt)).1.map Error.ledger } := by
  rw [StateDBImpl.AddBalance]
  have h0 : amt ≠ 0 := by omega
  have h1 : ¬ amt < 0 := by omega
  simp [h0, h1, Keeper.GetSeiAddress, Keeper.GetBaseDenom, ha]

theorem AddBalance_unassoc (s : StateDBImpl β) (evmAddr : Address) (amt : Int) (h : 0 < amt)
    (ha : s.ctx.assoc evmAddr = none) :
    s.AddBalance evmAddr amt =
      if MaxUint64 - s.k.GetBalance s.ctx evmAddr < Uint64 amt then
        { s with err := some (Error.overflow amt evmAddr (s.k.GetBalance s.ctx evmAddr)) }
      else
        { s.AddBigIntTransientModuleState amt TotalUnassociatedBalanceKey with
          ctx := s.k.SetOrDeleteBalance
            (s.AddBigIntTransientModuleState amt TotalUnassociatedBalanceKey).ctx evmAddr
            ((s.k.GetBalance s.ctx evmAddr + Uint64 amt) % 2 ^ 64) } := by
  rw [StateDBImpl.AddBalance]
  have h0 : amt ≠ 0 := by omega
  have h1 : ¬ amt < 0 := by omega
  simp [h0, h1, Keeper.GetSeiAddress, ha]
  rfl


/-! ## Evaluation lemmas on the example states -/

theorem counter_setBalance (s : StateDBImpl β) (k : Keeper β) (evmAddr : Address) (value : Nat) :
    StateDBImpl.counter { s with ctx := k.SetOrDeleteBalance s.ctx evmAddr value } = s.counter :=
  rfl

theorem counter_exampleState (pool entry : Nat) : (exampleState pool entry).counter = 0 := by
  simp [StateDBImpl.counter, StateDBImpl.GetBigIntTransientModuleState, exampleState]

theorem exampleState_sub_insufficient :
    (exampleState 0 0).SubBalance 1 1
      = { exampleState 0 0 with err := some (Error.insufficientBalance 0 1 1) } := by
  rw [SubBalance_unassoc (exampleState 0 0) 1 1 (by norm_num) (by simp [exampleState])]
  simp [Uint64, Keeper.GetBalance, exampleState]

/-! ## The recorded error and `CheckBalance` -/

/-- C1 (the code at the failing input).  On the example state, `SubBalance(1, 1)` on the
unassociated address `1` (balance `0`) records the insufficient-balance error; the following
`SubBalance(2, 1)` on the associated address `2` succeeds on the ledger and overwrites the
recorded error with `nil`; `CheckBalance` called after the two calls then returns no error. -/
theorem CheckBalance_after_overwritten_error :
    ((exampleState 0 0).callAll [BalanceCall.SubBalance 1 1]).err
        = some (Error.insufficientBalance 0 1 1) ∧
    ((exampleState 0 0).callAll
        [BalanceCall.SubBalance 1 1, BalanceCall.SubBalance 2 1]).err = none ∧
    ((exampleState 0 0).callAll
        [BalanceCall.SubBalance 1 1, BalanceCall.SubBalance 2 1]).CheckBalance.1 = none := by
  simp only [StateDBImpl.callAll, List.foldl, StateDBImpl.call]
  rw [exampleState_sub_insufficient,
    SubBalance_assoc _ 2 1 (by norm_num) [2] (by simp [exampleState])]
  simp [StateDBImpl.CheckBalance, Context.SendCoinsFromAccountToModule, exampleKeeper,
    Ledger.keeper, Ledger.transfer, NewCoin, StateDBImpl.GetBigIntTransientModuleState,
    Keeper.GetModuleBalance, Keeper.GetBaseDenom, TotalUnassociatedBalanceKey,
    exampleModuleAddress, Context.BurnCoins, Ledger.burn, exampleState, ModuleName]

/-! ## Mutations on unassociated addresses -/

/-- Where `SubBalance` behaves as specified: on an unassociated address, a positive amount below
`2 ^ 64` that exceeds the stored balance records the insufficient-balance error and changes
nothing else. -/
theorem SubBalance_insufficient_of_lt (s : StateDBImpl β) (evmAddr : Address) (amt : Int)
    (hpos : 0 < amt) (hlt : amt < 2 ^ 64) (ha : s.ctx.assoc evmAddr = none)
    (hb : amt > (s.k.GetBalance s.ctx evmAddr : Int)) :
    s.SubBalance evmAddr amt
      = { s with err := some (Error.insufficientBalance (s.k.GetBalance s.ctx evmAddr)
                                evmAddr amt) } := by
  rw [SubBalance_unassoc s evmAddr amt hpos ha]
  have hu : Uint64 amt > s.k.GetBalance s.ctx evmAddr := by
    unfold Uint64
    omega
  simp [hu]

/-- Where `AddBalance` behaves as specified: on an unassociated address whose stored balance is a
`uint64`, a positive amount below `2 ^ 64` that would take the balance past `MaxUint64` records
the overflow error and changes nothing else. -/
theorem AddBalance_overflow_of_lt (s : StateDBImpl β) (evmAddr : Address) (amt : Int)
    (hpos : 0 < amt) (hlt : amt < 2 ^ 64) (ha : s.ctx.assoc evmAddr = none)
    (hb64 : s.k.GetBalance s.ctx evmAddr < 2 ^ 64)
    (hb : (s.k.GetBalance s.ctx evmAddr : Int) + amt > (MaxUint64 : Int)) :
    s.AddBalance evmAddr amt
      = { s with err := some (Error.overflow amt evmAddr (s.k.GetBalance s.ctx evmAddr)) } := by
  rw [AddBalance_unassoc s evmAddr amt hpos ha]
  have hu : MaxUint64 - s.k.GetBalance s.ctx evmAddr < Uint64 amt := by
    unfold Uint64 MaxUint64 at *
    omega
  simp [hu]

/-- C2 (the code at the failing input).  On the example state with balance entry `5` for the
unassociated address `1`, `SubBalance(1, 2 ^ 64 + 3)` compares only the low 64 bits of the amount
(`3`) with the balance: it records no error, rewrites the entry to `2` and lowers the Conservation
Counter from `0` to `-(2 ^ 64 + 3)`. -/
theorem SubBalance_truncated_amount :
    (exampleState 0 5).ctx.assoc 1 = none ∧
    (exampleState 0 5).k.GetBalance (exampleState 0 5).ctx 1 = 5 ∧
    (exampleState 0 5).counter = 0 ∧
    ((exampleState 0 5).SubBalance 1 (2 ^ 64 + 3)).err = none ∧
    ((exampleState 0 5).SubBalance 1 (2 ^ 64 + 3)).ctx.balances 1 = some 2 ∧
    ((exampleState 0 5).SubBalance 1 (2 ^ 64 + 3)).counter = -(2 ^ 64 + 3) := by
  have hb : (exampleState 0 5).k.GetBalance (exampleState 0 5).ctx 1 = 5 := by
    simp [Keeper.GetBalance, exampleState]
  have hu : Uint64 (2 ^ 64 + 3) = 3 := by
    unfold Uint64
    norm_num
  refine ⟨by simp [exampleState], hb, counter_exampleState 0 5, ?_⟩
  rw [SubBalance_unassoc (exampleState 0 5) 1 (2 ^ 64 + 3) (by norm_num) (by simp [exampleState]),
    hb, hu]
  simp only [gt_iff_lt, show ¬ (5 < 3) by decide, if_false]
  refine ⟨rfl, ?_, ?_⟩
  · simp [Keeper.SetOrDeleteBalance]
  · rw [counter_setBalance _ (exampleState 0 5).k, counter_AddBigInt, counter_exampleState]
    norm_num

/-- C3 (the code at the failing input).  On the example state with balance entry `5` for the
unassociated address `1`, `AddBalance(1, 2 ^ 64 + 1)` checks only the low 64 bits of the amount
(`1`) for overflow: it records no error, rewrites the entry to `6` and raises the Conservation
Counter from `0` to `2 ^ 64 + 1`. -/
theorem AddBalance_truncated_amount :
    (exampleState 0 5).ctx.assoc 1 = none ∧
    (exampleState 0 5).k.GetBalance (exampleState 0 5).ctx 1 = 5 ∧
    (exampleState 0 5).counter = 0 ∧
    ((exampleState 0 5).AddBalance 1 (2 ^ 64 + 1)).err = none ∧
    ((exampleState 0 5).AddBalance 1 (2 ^ 64 + 1)).ctx.balances 1 = some 6 ∧
    ((exampleState 0 5).AddBalance 1 (2 ^ 64 + 1)).counter = 2 ^ 64 + 1 := by
  have hb : (exampleState 0 5).k.GetBalance (exampleState 0 5).ctx 1 = 5 := by
    simp [Keeper.GetBalance, exampleState]
  have hu : Uint64 (2 ^ 64 + 1) = 1 := by
    unfold Uint64
    norm_num
  refine ⟨by simp [exampleState], hb, counter_exampleState 0 5, ?_⟩
  rw [AddBalance_unassoc (exampleState 0 5) 1 (2 ^ 64 + 1) (by norm_num) (by simp [exampleState]),
    hb, hu]
  simp only [show ¬ (MaxUint64 - 5 < 1) by decide, if_false]
  refine ⟨rfl, ?_, ?_⟩
  · simp [Keeper.SetOrDeleteBalance]
  · rw [counter_setBalance _ (exampleState 0 5).k, counter_AddBigInt, counter_exampleState]
    norm_num


/-! ## Sequences of mutations on an unassociated address -/

theorem SubBalance_pos_unassoc (s : StateDBImpl β) (evmAddr : Address) (amt : Int)
    (h : 0 < amt) (ha : s.ctx.assoc evmAddr = none) :
    (s.SubBalance evmAddr amt).ctx.assoc = s.ctx.assoc ∧
    (((s.SubBalance evmAddr amt).err ≠ none ∧ (s.SubBalance evmAddr amt).counter = s.counter) ∨
     ((s.SubBalance evmAddr amt).err = s.err ∧
      (s.SubBalance evmAddr amt).counter = s.counter - amt)) := by
  rw [SubBalance_unassoc s evmAddr amt h ha]
  split
  · exact ⟨rfl, Or.inl ⟨by simp, rfl⟩⟩
  · refine ⟨rfl, Or.inr ⟨rfl, ?_⟩⟩
    rw [counter_setBalance _ s.k, counter_AddBigInt]
    ring

theorem AddBalance_pos_unassoc (s : StateDBImpl β) (evmAddr : Address) (amt : Int)
    (h : 0 < amt) (ha : s.ctx.assoc evmAddr = none) :
    (s.AddBalance evmAddr amt).ctx.assoc = s.ctx.assoc ∧
    (((s.AddBalance evmAddr amt).err ≠ none ∧ (s.AddBalance evmAddr amt).counter = s.counter) ∨
     ((s.AddBalance evmAddr amt).err = s.err ∧
      (s.AddBalance evmAddr amt).counter = s.counter + amt)) := by
  rw [AddBalance_unassoc s evmAddr amt h ha]
  split
  · exact ⟨rfl, Or.inl ⟨by simp, rfl⟩⟩
  · refine ⟨rfl, Or.inr ⟨rfl, ?_⟩⟩
    rw [counter_setBalance _ s.k, counter_AddBigInt]

theorem call_unassoc (s : StateDBImpl β) (c : BalanceCall)
    (ha : s.ctx.assoc c.evmAddr = none) :
    (s.call c).ctx.assoc = s.ctx.assoc ∧
    (((s.call c).err ≠ none ∧ (s.call c).counter = s.counter) ∨
     ((s.call c).err = s.err ∧ (s.call c).counter = s.counter + c.delta)) := by
  cases c with
  | AddBalance evmAddr amt =>
    simp only [StateDBImpl.call, BalanceCall.delta, BalanceCall.evmAddr] at ha ⊢
    rcases lt_trichotomy amt 0 with hneg | hzero | hpos
    · rw [AddBalance_neg s evmAddr amt hneg]
      have h := SubBalance_pos_unassoc s evmAddr (-amt) (by omega) ha
      rw [sub_neg_eq_add] at h
      exact h
    · subst hzero
      rw [AddBalance_zero]
      exact ⟨rfl, Or.inr ⟨rfl, by ring⟩⟩
    · exact AddBalance_pos_unassoc s evmAddr amt hpos ha
  | SubBalance evmAddr amt =>
    simp only [StateDBImpl.call, BalanceCall.delta, BalanceCall.evmAddr] at ha ⊢
    rcases lt_trichotomy amt 0 with hneg | hzero | hpos
    · rw [SubBalance_neg s evmAddr amt hneg]
      exact AddBalance_pos_unassoc s evmAddr (-amt) (by omega) ha
    · subst hzero
      rw [SubBalance_zero]
      exact ⟨rfl, Or.inr ⟨rfl, by ring⟩⟩
    · have h := SubBalance_pos_unassoc s evmAddr amt hpos ha
      rw [sub_eq_add_neg] at h
      exact h

/-- A recorded error survives every later mutation that is issued on an unassociated address. -/
theorem err_sticky_on_unassoc (calls : List BalanceCall) (s : StateDBImpl β)
    (hall : ∀ c ∈ calls, s.ctx.assoc c.evmAddr = none) (herr : s.err ≠ none) :
    (s.callAll calls).err ≠ none := by
  induction calls generalizing s with
  | nil => exact herr
  | cons c cs ih =>
    have hc := call_unassoc s c (hall c (List.mem_cons_self c cs))
    have hstep : (s.call c).err ≠ none := by
      rcases hc.2 with h | h
      · exact h.1
      · rw [h.1]
        exact herr
    exact ih (s.call c)
      (fun d hd => by rw [hc.1]; exact hall d (List.mem_cons_of_mem c hd)) hstep

/-- After a sequence of mutations on unassociated addresses that leaves no recorded error, the
Conservation Counter has moved by the sum of the signed amounts applied. -/
theorem counter_eq_sum_of_deltas (calls : List BalanceCall) (s : StateDBImpl β)
    (hall : ∀ c ∈ calls, s.ctx.assoc c.evmAddr = none)
    (hok : (s.callAll calls).err = none) :
    (s.callAll calls).counter = s.counter + (calls.map BalanceCall.delta).sum := by
  induction calls generalizing s with
  | nil => simp [StateDBImpl.callAll]
  | cons c cs ih =>
    have hc := call_unassoc s c (hall c (List.mem_cons_self c cs))
    have hall1 : ∀ d ∈ cs, (s.call c).ctx.assoc d.evmAddr = none :=
      fun d hd => by rw [hc.1]; exact hall d (List.mem_cons_of_mem c hd)
    have hstep : (s.call c).counter = s.counter + c.delta := by
      rcases hc.2 with h | h
      · exact absurd hok (err_sticky_on_unassoc cs (s.call c) hall1 h.1)
      · exact h.2
    have := ih (s.call c) hall1 hok
    simp only [StateDBImpl.callAll, List.foldl_cons, List.map_cons, List.sum_cons] at this ⊢
    rw [this, hstep]
    ring

/-! ## `GetBalance` -/

/-- For an associated address `GetBalance` is the ledger's base-denomination balance of the
associated native address. -/
theorem GetBalance_assoc (s : StateDBImpl β) (evmAddr : Address) (seiAddr : AccAddress)
    (ha : s.ctx.assoc evmAddr = some seiAddr) :
    s.GetBalance evmAddr = (s.k.bankKeeper.GetBalance s.ctx.bank seiAddr s.ctx.baseDenom).amount := by
  simp [StateDBImpl.GetBalance, Keeper.GetSeiAddress, Keeper.GetBaseDenom, ha]

/-- For an unassociated address whose stored balance is below `2 ^ 63`, `GetBalance` is the
stored balance (zero when there is no entry). -/
theorem GetBalance_unassoc_of_lt (s : StateDBImpl β) (evmAddr : Address)
    (ha : s.ctx.assoc evmAddr = none) (hb : (s.ctx.balances evmAddr).getD 0 < 2 ^ 63) :
    s.GetBalance evmAddr = (((s.ctx.balances evmAddr).getD 0 : Nat) : Int) := by
  have hm : (s.ctx.balances evmAddr).getD 0 % 2 ^ 64 = (s.ctx.balances evmAddr).getD 0 :=
    Nat.mod_eq_of_lt (by omega)
  simp only [StateDBImpl.GetBalance, Keeper.GetSeiAddress, Keeper.GetBalance, ha, toInt64, hm]
  rw [if_pos hb]

/-- C5 (the code at the failing input).  On the example state with the balance entry `2 ^ 63` for
the unassociated address `1`, `GetBalance(1)` passes the entry through `int64` and returns
`-(2 ^ 63)`, a negative integer, instead of the stored value. -/
theorem GetBalance_high_entry_negative :
    (exampleState 0 (2 ^ 63)).ctx.assoc 1 = none ∧
    (exampleState 0 (2 ^ 63)).ctx.balances 1 = some (2 ^ 63) ∧
    (exampleState 0 (2 ^ 63)).GetBalance 1 = -(2 ^ 63) := by
  refine ⟨by simp [exampleState], by simp [exampleState], ?_⟩
  simp [StateDBImpl.GetBalance, Keeper.GetSeiAddress, Keeper.GetBalance, exampleState, toInt64]

/-- C4 (the code at the failing inputs).  Starting from the example state, where address `1` is
unassociated with no balance entry and the Conservation Counter is zero: after the single call
`AddBalance(1, 2 ^ 63)`, which records no error, the counter is `2 ^ 63` but `GetBalance(1)` is
`-(2 ^ 63)`; after the single call `AddBalance(1, 2 ^ 64)`, which records no error either, the
counter is `2 ^ 64` but `GetBalance(1)` is `0`. -/
theorem GetBalance_not_sum_of_deltas :
    (exampleState 0 0).ctx.assoc 1 = none ∧
    (exampleState 0 0).ctx.balances 1 = none ∧
    (exampleState 0 0).counter = 0 ∧
    (([BalanceCall.AddBalance 1 (2 ^ 63)].map BalanceCall.delta).sum = 2 ^ 63 ∧
      ((exampleState 0 0).callAll [BalanceCall.AddBalance 1 (2 ^ 63)]).err = none ∧
      ((exampleState 0 0).callAll [BalanceCall.AddBalance 1 (2 ^ 63)]).counter = 2 ^ 63 ∧
      ((exampleState 0 0).callAll [BalanceCall.AddBalance 1 (2 ^ 63)]).GetBalance 1 = -(2 ^ 63)) ∧
    (([BalanceCall.AddBalance 1 (2 ^ 64)].map BalanceCall.delta).sum = 2 ^ 64 ∧
      ((exampleState 0 0).callAll [BalanceCall.AddBalance 1 (2 ^ 64)]).err = none ∧
      ((exampleState 0 0).callAll [BalanceCall.AddBalance 1 (2 ^ 64)]).counter = 2 ^ 64 ∧
      ((exampleState 0 0).callAll [BalanceCall.AddBalance 1 (2 ^ 64)]).GetBalance 1 = 0) := by
  have hb : (exampleState 0 0).k.GetBalance (exampleState 0 0).ctx 1 = 0 := by
    simp [Keeper.GetBalance, exampleState]
  have hu63 : Uint64 (2 ^ 63) = 2 ^ 63 := by
    unfold Uint64
    norm_num
  have hu64 : Uint64 (2 ^ 64) = 0 := by
    unfold Uint64
    norm_num
  refine ⟨by simp [exampleState], by simp [exampleState], counter_exampleState 0 0, ?_, ?_⟩
  · simp only [StateDBImpl.callAll, List.foldl, StateDBImpl.call]
    rw [AddBalance_unassoc (exampleState 0 0) 1 (2 ^ 63) (by norm_num) (by simp [exampleState]),
      hb, hu63]
    simp only [show ¬ (MaxUint64 - 0 < 2 ^ 63) by decide, if_false]
    refine ⟨by simp [BalanceCall.delta], rfl, ?_, ?_⟩
    · rw [counter_setBalance _ (exampleState 0 0).k, counter_AddBigInt, counter_exampleState]
      norm_num
    · simp [StateDBImpl.GetBalance, Keeper.GetSeiAddress, Keeper.GetBalance,
        Keeper.SetOrDeleteBalance, StateDBImpl.AddBigIntTransientModuleState, exampleState,
        toInt64]
  · simp only [StateDBImpl.callAll, List.foldl, StateDBImpl.call]
    rw [AddBalance_unassoc (exampleState 0 0) 1 (2 ^ 64) (by norm_num) (by simp [exampleState]),
      hb, hu64]
    simp only [show ¬ (MaxUint64 - 0 < 0) by decide, if_false]
    refine ⟨by simp [BalanceCall.delta], rfl, ?_, ?_⟩
    · rw [counter_setBalance _ (exampleState 0 0).k, counter_AddBigInt, counter_exampleState]
      norm_num
    · simp [StateDBImpl.GetBalance, Keeper.GetSeiAddress, Keeper.GetBalance,
        Keeper.SetOrDeleteBalance, StateDBImpl.AddBigIntTransientModuleState, exampleState,
        toInt64]


/-! ## `CheckBalance` -/

theorem CheckBalance_of_error (s : StateDBImpl β) (h : s.err ≠ none) :
    s.CheckBalance = (some Error.checkAfterError, s) := by
  simp [StateDBImpl.CheckBalance, h]

theorem CheckBalance_of_no_error (s : StateDBImpl β) (h : s.err = none) :
    s.CheckBalance =
      if s.counter > s.k.GetModuleBalance s.ctx then
        (some (Error.balanceCheckFailed (s.k.GetModuleBalance s.ctx) s.counter), s)
      else
        ((s.ctx.BurnCoins s.k.bankKeeper ModuleName
            (NewCoin s.ctx.baseDenom (s.k.GetModuleBalance s.ctx - s.counter))).1.map Error.ledger,
         { s with ctx := (s.ctx.BurnCoins s.k.bankKeeper ModuleName
            (NewCoin s.ctx.baseDenom (s.k.GetModuleBalance s.ctx - s.counter))).2 }) := by
  simp [StateDBImpl.CheckBalance, h, StateDBImpl.counter, Keeper.GetBaseDenom]

theorem exampleState_sub_one :
    (exampleState 5 1).SubBalance 1 1
      = { (exampleState 5 1).AddBigIntTransientModuleState (-1) TotalUnassociatedBalanceKey with
          ctx := (exampleState 5 1).k.SetOrDeleteBalance
            ((exampleState 5 1).AddBigIntTransientModuleState (-1)
              TotalUnassociatedBalanceKey).ctx 1 0 } := by
  rw [SubBalance_unassoc (exampleState 5 1) 1 1 (by norm_num) (by simp [exampleState])]
  have hb : (exampleState 5 1).k.GetBalance (exampleState 5 1).ctx 1 = 1 := by
    simp [Keeper.GetBalance, exampleState]
  have hu : Uint64 1 = 1 := by
    unfold Uint64
    norm_num
  rw [hb, hu]
  simp

theorem exampleState_add_two (pool : Nat) :
    (exampleState pool 0).AddBalance 1 2
      = { (exampleState pool 0).AddBigIntTransientModuleState 2 TotalUnassociatedBalanceKey with
          ctx := (exampleState pool 0).k.SetOrDeleteBalance
            ((exampleState pool 0).AddBigIntTransientModuleState 2
              TotalUnassociatedBalanceKey).ctx 1 2 } := by
  rw [AddBalance_unassoc (exampleState pool 0) 1 2 (by norm_num) (by simp [exampleState])]
  have hb : (exampleState pool 0).k.GetBalance (exampleState pool 0).ctx 1 = 0 := by
    simp [Keeper.GetBalance, exampleState]
  have hu : Uint64 2 = 2 := by
    unfold Uint64
    norm_num
  rw [hb, hu]
  simp [MaxUint64]

/-- C6 (counterexample).  On the example state with pooled balance `5` and balance entry `1` for
the unassociated address `1`, `SubBalance(1, 1)` records no error and leaves the Conservation
Counter at `-1`, which does not exceed the pool; `CheckBalance` then requests a burn of `6` from a
pool of `5`, the burn fails, and `CheckBalance` returns that error with the pool still at `5`. -/
theorem CheckBalance_negative_counter_fails :
    ((exampleState 5 1).SubBalance 1 1).err = none ∧
    ((exampleState 5 1).SubBalance 1 1).counter = -1 ∧
    ((exampleState 5 1).SubBalance 1 1).k.GetModuleBalance
        ((exampleState 5 1).SubBalance 1 1).ctx = 5 ∧
    ((exampleState 5 1).SubBalance 1 1).CheckBalance.1
        = some (Error.ledger LedgerError.insufficientFunds) ∧
    ((exampleState 5 1).SubBalance 1 1).CheckBalance.2.k.GetModuleBalance
        ((exampleState 5 1).SubBalance 1 1).CheckBalance.2.ctx = 5 := by
  have herr : ((exampleState 5 1).SubBalance 1 1).err = none := by
    rw [exampleState_sub_one]
    rfl
  have hc : ((exampleState 5 1).SubBalance 1 1).counter = -1 := by
    rw [exampleState_sub_one, counter_setBalance _ (exampleState 5 1).k, counter_AddBigInt,
      counter_exampleState]
    norm_num
  have hp : ((exampleState 5 1).SubBalance 1 1).k.GetModuleBalance
      ((exampleState 5 1).SubBalance 1 1).ctx = 5 := by
    rw [exampleState_sub_one]
    simp [Keeper.GetModuleBalance, Keeper.GetBaseDenom, Keeper.SetOrDeleteBalance,
      StateDBImpl.AddBigIntTransientModuleState, exampleState, exampleKeeper, Ledger.keeper,
      exampleModuleAddress]
  refine ⟨herr, hc, hp, ?_, ?_⟩
  · rw [CheckBalance_of_no_error _ herr, hc, hp]
    rw [exampleState_sub_one]
    simp [Context.BurnCoins, Keeper.SetOrDeleteBalance, StateDBImpl.AddBigIntTransientModuleState,
      exampleState, exampleKeeper, Ledger.keeper, Ledger.burn, NewCoin, exampleModuleAddress]
  · rw [CheckBalance_of_no_error _ herr, hc, hp]
    rw [exampleState_sub_one]
    simp [Context.BurnCoins, Keeper.SetOrDeleteBalance, StateDBImpl.AddBigIntTransientModuleState,
      exampleState, exampleKeeper, Ledger.keeper, Ledger.burn, NewCoin, exampleModuleAddress,
      Keeper.GetModuleBalance, Keeper.GetBaseDenom]

/-- C6 (amended).  Over the concrete ledger, whose burn succeeds exactly when the amount does not
exceed the pool and then reduces the pool by that amount: in every state with no recorded
mutation error whose Conservation Counter does not exceed the pooled module balance,
`CheckBalance` requests one burn of `pool - counter`.  When the counter is non-negative the burn
and `CheckBalance` succeed, and afterwards the pooled module balance equals the counter.  When
the counter is negative the burn exceeds the pool and `CheckBalance` returns the ledger's error,
the pool being unchanged. -/
theorem CheckBalance_burns_difference (s : StateDBImpl Ledger)
    (hk : s.k.bankKeeper = Ledger.keeper s.k.moduleAddress) (herr : s.err = none)
    (hle : s.counter ≤ s.k.GetModuleBalance s.ctx) :
    s.CheckBalance.2.ctx.calls
        = s.ctx.calls ++ [BankCall.BurnCoins ModuleName
            (NewCoin s.ctx.baseDenom (s.k.GetModuleBalance s.ctx - s.counter))] ∧
    s.CheckBalance.2.counter = s.counter ∧
    (0 ≤ s.counter →
      s.CheckBalance.1 = none ∧
      s.CheckBalance.2.k.GetModuleBalance s.CheckBalance.2.ctx = s.counter) ∧
    (s.counter < 0 →
      s.CheckBalance.1 = some (Error.ledger LedgerError.insufficientFunds) ∧
      s.CheckBalance.2.k.GetModuleBalance s.CheckBalance.2.ctx
        = s.k.GetModuleBalance s.ctx) := by
  have hP : s.k.GetModuleBalance s.ctx
      = ((s.ctx.bank.balances (s.k.moduleAddress ModuleName) s.ctx.baseDenom : Nat) : Int) := by
    simp [Keeper.GetModuleBalance, Keeper.GetBaseDenom, hk, Ledger.keeper]
  rw [CheckBalance_of_no_error s herr, if_neg (not_lt.mpr hle)]
  refine ⟨rfl, rfl, ?_, ?_⟩
  · intro h0
    rw [hP] at hle ⊢
    have hcond : 0 ≤ ((s.ctx.bank.balances (s.k.moduleAddress ModuleName) s.ctx.baseDenom : Nat)
          : Int) - s.counter ∧
        ((s.ctx.bank.balances (s.k.moduleAddress ModuleName) s.ctx.baseDenom : Nat) : Int)
          - s.counter
          ≤ ((s.ctx.bank.balances (s.k.moduleAddress ModuleName) s.ctx.baseDenom : Nat) : Int) := by
      omega
    simp only [Context.BurnCoins, hk, Ledger.keeper, Ledger.burn, NewCoin, hcond, and_self,
      if_true, Option.map_none', Keeper.GetModuleBalance, Keeper.GetBaseDenom, true_and]
    omega
  · intro hneg
    rw [hP] at hle ⊢
    have hcond : ¬ (0 ≤ ((s.ctx.bank.balances (s.k.moduleAddress ModuleName) s.ctx.baseDenom
          : Nat) : Int) - s.counter ∧
        ((s.ctx.bank.balances (s.k.moduleAddress ModuleName) s.ctx.baseDenom : Nat) : Int)
          - s.counter
          ≤ ((s.ctx.bank.balances (s.k.moduleAddress ModuleName) s.ctx.baseDenom : Nat) : Int)) := by
      omega
    simp only [Context.BurnCoins, hk, Ledger.keeper, Ledger.burn, NewCoin, hcond,
      if_false, Option.map_some', Keeper.GetModuleBalance, Keeper.GetBaseDenom, and_self]

/-- C6 (witness).  The example state with pool `5`, after `AddBalance(1, 2)` on the unassociated
address `1`, has counter `2`; `CheckBalance` succeeds and leaves the pool at the counter. -/
theorem CheckBalance_burns_difference_witness :
    ((exampleState 5 0).AddBalance 1 2).counter = 2 ∧
    ((exampleState 5 0).AddBalance 1 2).CheckBalance.1 = none ∧
    ((exampleState 5 0).AddBalance 1 2).CheckBalance.2.k.GetModuleBalance
        ((exampleState 5 0).AddBalance 1 2).CheckBalance.2.ctx
      = ((exampleState 5 0).AddBalance 1 2).counter := by
  have hc : ((exampleState 5 0).AddBalance 1 2).counter = 2 := by
    rw [exampleState_add_two, counter_setBalance _ (exampleState 5 0).k, counter_AddBigInt,
      counter_exampleState]
    norm_num
  have hp : ((exampleState 5 0).AddBalance 1 2).k.GetModuleBalance
      ((exampleState 5 0).AddBalance 1 2).ctx = 5 := by
    rw [exampleState_add_two]
    simp [Keeper.GetModuleBalance, Keeper.GetBaseDenom, Keeper.SetOrDeleteBalance,
      StateDBImpl.AddBigIntTransientModuleState, exampleState, exampleKeeper, Ledger.keeper,
      exampleModuleAddress]
  exact ⟨hc, (CheckBalance_burns_difference ((exampleState 5 0).AddBalance 1 2)
    (by rw [exampleState_add_two]; rfl) (by rw [exampleState_add_two]; rfl)
    (by rw [hc, hp]; norm_num)).2.2.1 (by rw [hc]; norm_num)⟩

/-- C7.  With no recorded mutation error, `CheckBalance` returns the balance-check error exactly
when the Conservation Counter is strictly greater than the pooled module balance, and then issues
no call to the ledger; in every case the only call it may issue is one burn, and the amount of
that burn is non-negative. -/
theorem CheckBalance_conservation_violation (s : StateDBImpl β) (herr : s.err = none) :
    ((∃ cur tot, s.CheckBalance.1 = some (Error.balanceCheckFailed cur tot))
        ↔ s.counter > s.k.GetModuleBalance s.ctx) ∧
    (s.counter > s.k.GetModuleBalance s.ctx →
      s.CheckBalance.1
          = some (Error.balanceCheckFailed (s.k.GetModuleBalance s.ctx) s.counter) ∧
      s.CheckBalance.2.ctx.calls = s.ctx.calls) ∧
    (s.CheckBalance.2.ctx.calls = s.ctx.calls ∨
      ∃ amount : Int, 0 ≤ amount ∧
        s.CheckBalance.2.ctx.calls
          = s.ctx.calls ++ [BankCall.BurnCoins ModuleName (NewCoin s.ctx.baseDenom amount)]) := by
  rw [CheckBalance_of_no_error s herr]
  by_cases hgt : s.counter > s.k.GetModuleBalance s.ctx
  · rw [if_pos hgt]
    exact ⟨⟨fun _ => hgt, fun _ => ⟨_, _, rfl⟩⟩, fun _ => ⟨rfl, rfl⟩, Or.inl rfl⟩
  · rw [if_neg hgt]
    refine ⟨⟨?_, fun h => absurd h hgt⟩, fun h => absurd h hgt, Or.inr ⟨_, ?_, rfl⟩⟩
    · rintro ⟨cur, tot, h⟩
      exfalso
      revert h
      cases (s.ctx.BurnCoins s.k.bankKeeper ModuleName
        (NewCoin s.ctx.baseDenom (s.k.GetModuleBalance s.ctx - s.counter))).1 <;> simp
    · have := not_lt.mp hgt
      omega

/-- C7 (witness).  On the example state with pool `0` after `AddBalance(1, 2)` the counter `2`
exceeds the pool, `CheckBalance` returns the balance-check error and issues no ledger call. -/
theorem CheckBalance_conservation_violation_witness :
    ((exampleState 0 0).AddBalance 1 2).CheckBalance.1
        = some (Error.balanceCheckFailed
            (((exampleState 0 0).AddBalance 1 2).k.GetModuleBalance
              ((exampleState 0 0).AddBalance 1 2).ctx)
            ((exampleState 0 0).AddBalance 1 2).counter) ∧
    ((exampleState 0 0).AddBalance 1 2).CheckBalance.2.ctx.calls
        = ((exampleState 0 0).AddBalance 1 2).ctx.calls := by
  have hc : ((exampleState 0 0).AddBalance 1 2).counter = 2 := by
    rw [exampleState_add_two, counter_setBalance _ (exampleState 0 0).k, counter_AddBigInt,
      counter_exampleState]
    norm_num
  have hp : ((exampleState 0 0).AddBalance 1 2).k.GetModuleBalance
      ((exampleState 0 0).AddBalance 1 2).ctx = 0 := by
    rw [exampleState_add_two]
    simp [Keeper.GetModuleBalance, Keeper.GetBaseDenom, Keeper.SetOrDeleteBalance,
      StateDBImpl.AddBigIntTransientModuleState, exampleState, exampleKeeper, Ledger.keeper,
      exampleModuleAddress]
  exact (CheckBalance_conservation_violation ((exampleState 0 0).AddBalance 1 2)
    (by rw [exampleState_add_two]; rfl)).2.1 (by rw [hc, hp]; norm_num)

/-! ## The bank precompile -/

theorem pack_success_flag (method : Method) (hm : method.Outputs = [AbiType.bool]) :
    method.OutputsPack [Arg.bool true] = Except.ok (abiWord 1) := by
  simp [Method.OutputsPack, hm, packArguments, packElement]

/-- C8 (counterexample).  On the example context, where the EVM addresses `1` and `0` have no
association: `send` from `1` with amount `0` succeeds; `send` from the zero address fails with
"invalid addr", `send` with an empty denom with "invalid denom" and `send` with five arguments
with the arity error, none of them the association error; `balance` of the zero address fails
with "invalid addr". -/
theorem bridge_unassociated_other_outcomes :
    (exampleState 0 0).ctx.assoc 1 = none ∧
    (exampleState 0 0).ctx.assoc 0 = none ∧
    examplePrecompile.send (exampleState 0 0).ctx sendMethodAbi
        [Arg.address 1, Arg.address 2, Arg.string "usei", Arg.bigInt 0]
      = some (Except.ok (abiWord 1), (exampleState 0 0).ctx) ∧
    examplePrecompile.send (exampleState 0 0).ctx sendMethodAbi
        [Arg.address 0, Arg.address 2, Arg.string "usei", Arg.bigInt 1]
      = some (Except.error Error.invalidAddr, (exampleState 0 0).ctx) ∧
    examplePrecompile.send (exampleState 0 0).ctx sendMethodAbi
        [Arg.address 1, Arg.address 2, Arg.string "", Arg.bigInt 1]
      = some (Except.error Error.invalidDenom, (exampleState 0 0).ctx) ∧
    examplePrecompile.send (exampleState 0 0).ctx sendMethodAbi
        [Arg.address 1, Arg.address 2, Arg.string "usei", Arg.bigInt 1, Arg.bool true]
      = some (Except.error Error.sendArity, (exampleState 0 0).ctx) ∧
    examplePrecompile.balance (exampleState 0 0).ctx balanceMethodAbi
        [Arg.address 0, Arg.string "usei"]
      = some (Except.error Error.invalidAddr, (exampleState 0 0).ctx) := by
  refine ⟨by simp [exampleState], by simp [exampleState], ?_, ?_, ?_, ?_, ?_⟩
  · simp [Precompile.send, pack_success_flag sendMethodAbi rfl]
  · simp [Precompile.send, Precompile.accAddressFromArg]
  · simp [Precompile.send]
  · simp [Precompile.send]
  · simp [Precompile.balance, Precompile.accAddressFromArg]

/-- C8 (amended).  A `send` call with four arguments, a non-empty string denom, a non-zero integer
amount and non-zero `from` and `to` addresses of which at least one has no association fails with
the association error and leaves the context, hence the ledger and its call trace, unchanged; a
`balance` call whose first argument is a non-zero address without association does the same,
whatever follows it in the argument list. -/
theorem bridge_unassociated_fails (p : Precompile β) (ctx : Context β) (method : Method)
    (fromAddr toAddr addr : Address) (denom : String) (amount : Int) (rest : List Arg)
    (hd : denom ≠ "") (hamt : amount ≠ 0) (hf : fromAddr ≠ 0) (ht : toAddr ≠ 0)
    (hassoc : ctx.assoc fromAddr = none ∨ ctx.assoc toAddr = none)
    (haddr : addr ≠ 0) (hnone : ctx.assoc addr = none) :
    p.send ctx method
        [Arg.address fromAddr, Arg.address toAddr, Arg.string denom, Arg.bigInt amount]
      = some (Except.error Error.noAssociation, ctx) ∧
    p.balance ctx method (Arg.address addr :: rest)
      = some (Except.error Error.noAssociation, ctx) := by
  constructor
  · cases hfa : ctx.assoc fromAddr with
    | none =>
      simp [Precompile.send, Precompile.accAddressFromArg, Keeper.GetSeiAddress, hd, hamt, hf, hfa]
    | some f =>
      have hta : ctx.assoc toAddr = none := by
        rcases hassoc with h | h
        · rw [hfa] at h
          cases h
        · exact h
      simp [Precompile.send, Precompile.accAddressFromArg, Keeper.GetSeiAddress, hd, hamt, hf,
        ht, hfa, hta]
  · simp [Precompile.balance, Precompile.accAddressFromArg, Keeper.GetSeiAddress, haddr, hnone]

/-- C8 (witness).  On the example context, `send` of `1 usei` from the associated address `2` to
the unassociated address `1`, and `balance` of the address `1`, fail with the association
error. -/
theorem bridge_unassociated_fails_witness :
    examplePrecompile.send (exampleState 0 0).ctx sendMethodAbi
        [Arg.address 2, Arg.address 1, Arg.string "usei", Arg.bigInt 1]
      = some (Except.error Error.noAssociation, (exampleState 0 0).ctx) ∧
    examplePrecompile.balance (exampleState 0 0).ctx balanceMethodAbi
        [Arg.address 1, Arg.string "usei"]
      = some (Except.error Error.noAssociation, (exampleState 0 0).ctx) :=
  bridge_unassociated_fails examplePrecompile (exampleState 0 0).ctx sendMethodAbi 2 1 1 "usei" 1
    [Arg.string "usei"] (by decide) (by decide) (by decide) (by decide)
    (Or.inr (by simp [exampleState])) (by decide) (by simp [exampleState])

/-- C9.  A `send` call with exactly four arguments, a non-empty string denom and the integer
amount `0` returns the packed success flag with no error and leaves the context, hence the ledger
and its call trace, unchanged, whatever the first two arguments are. -/
theorem send_zero_amount (p : Precompile β) (ctx : Context β) (method : Method)
    (arg0 arg1 : Arg) (denom : String) (hd : denom ≠ "")
    (hm : method.Outputs = [AbiType.bool]) :
    p.send ctx method [arg0, arg1, Arg.string denom, Arg.bigInt 0]
      = some (Except.ok (abiWord 1), ctx) := by
  simp [Precompile.send, hd, pack_success_flag method hm]

/-- C9 (witness).  On the example context, `send` of amount `0` between two unassociated
addresses returns the packed success flag. -/
theorem send_zero_amount_witness :
    examplePrecompile.send (exampleState 0 0).ctx sendMethodAbi
        [Arg.address 1, Arg.address 7, Arg.string "usei", Arg.bigInt 0]
      = some (Except.ok (abiWord 1), (exampleState 0 0).ctx) :=
  send_zero_amount examplePrecompile (exampleState 0 0).ctx sendMethodAbi (Arg.address 1)
    (Arg.address 7) "usei" (by decide) rfl

theorem validDenom_ne_empty (denom : String) (h : validDenom denom = true) : denom ≠ "" := by
  intro he
  subst he
  exact absurd h (by decide)

/-- When both addresses resolve and the coin cannot be built, `send` panics. -/
theorem send_none_of_unconstructible (p : Precompile β) (ctx : Context β) (method : Method)
    (fromAddr toAddr : Address) (senderSeiAddr receiverSeiAddr : AccAddress) (denom : String)
    (amount : Int) (hne : denom ≠ "") (hamt : amount ≠ 0) (hf : fromAddr ≠ 0) (ht : toAddr ≠ 0)
    (hfa : ctx.assoc fromAddr = some senderSeiAddr)
    (hta : ctx.assoc toAddr = some receiverSeiAddr)
    (hc : coinConstructible denom amount = false) :
    p.send ctx method
        [Arg.address fromAddr, Arg.address toAddr, Arg.string denom, Arg.bigInt amount]
      = none := by
  simp [Precompile.send, hne, hamt, Precompile.accAddressFromArg, hf, ht, Keeper.GetSeiAddress,
    hfa, hta, hc]

/-- C10 (counterexample).  On the example context, where the addresses `2` and `3` are non-zero
and associated with the native accounts `[2]` and `[3]`: `send` of the non-zero amount `1` of the
non-empty denom `a`, which is not a valid coin denomination, panics while building the coin, and
so do `send` of the non-zero amount `-1` of `usei` and `send` of the amount `2 ^ 256` of `usei`;
none of them returns a result or issues a transfer. -/
theorem send_unconstructible_coin_panics :
    (exampleState 0 0).ctx.assoc 2 = some [2] ∧
    (exampleState 0 0).ctx.assoc 3 = some [3] ∧
    examplePrecompile.send (exampleState 0 0).ctx sendMethodAbi
        [Arg.address 2, Arg.address 3, Arg.string "a", Arg.bigInt 1] = none ∧
    examplePrecompile.send (exampleState 0 0).ctx sendMethodAbi
        [Arg.address 2, Arg.address 3, Arg.string "usei", Arg.bigInt (-1)] = none ∧
    examplePrecompile.send (exampleState 0 0).ctx sendMethodAbi
        [Arg.address 2, Arg.address 3, Arg.string "usei", Arg.bigInt (2 ^ 256)] = none := by
  have h1 : coinConstructible "a" 1 = false := by decide
  have h2 : coinConstructible "usei" (-1) = false := by decide
  have h3 : coinConstructible "usei" (2 ^ 256) = false := by
    have hb : ¬ ((2 ^ 256 : Int).natAbs < 2 ^ 256) := by
      rw [Int.natAbs_pow]
      simp
    unfold coinConstructible
    rw [decide_eq_false hb]
    rfl
  have h0 : (2 ^ 256 : Int) ≠ 0 := by positivity
  have ha2 : (exampleState 0 0).ctx.assoc 2 = some [2] := by simp [exampleState]
  have ha3 : (exampleState 0 0).ctx.assoc 3 = some [3] := by simp [exampleState]
  exact ⟨ha2, ha3,
    send_none_of_unconstructible examplePrecompile _ sendMethodAbi 2 3 [2] [3] "a" 1
      (by decide) (by decide) (by decide) (by decide) ha2 ha3 h1,
    send_none_of_unconstructible examplePrecompile _ sendMethodAbi 2 3 [2] [3] "usei" (-1)
      (by decide) (by decide) (by decide) (by decide) ha2 ha3 h2,
    send_none_of_unconstructible examplePrecompile _ sendMethodAbi 2 3 [2] [3] "usei" (2 ^ 256)
      (by decide) h0 (by decide) (by decide) ha2 ha3 h3⟩

/-- C10 (amended).  A `send` call with four arguments, a denom that is a valid coin denomination
(`[a-zA-Z][a-zA-Z0-9/:._-]{2,127}`), a positive amount below `2 ^ 256` and non-zero `from` and
`to` addresses associated with `senderSeiAddr` and `receiverSeiAddr` returns (it does not panic)
and issues exactly one ledger call, the transfer of `amount` of `denom` from `senderSeiAddr` to
`receiverSeiAddr`, leaving the ledger as that transfer leaves it; it returns the packed success
flag if the transfer succeeds and the transfer's error, with no output, if it fails. -/
theorem send_transfers (p : Precompile β) (ctx : Context β) (method : Method)
    (fromAddr toAddr : Address) (senderSeiAddr receiverSeiAddr : AccAddress) (denom : String)
    (amount : Int) (hd : validDenom denom = true) (hpos : 0 < amount) (hbits : amount < 2 ^ 256)
    (hf : fromAddr ≠ 0) (ht : toAddr ≠ 0)
    (hfa : ctx.assoc fromAddr = some senderSeiAddr)
    (hta : ctx.assoc toAddr = some receiverSeiAddr)
    (hm : method.Outputs = [AbiType.bool]) :
    (p.send ctx method
        [Arg.address fromAddr, Arg.address toAddr, Arg.string denom, Arg.bigInt amount]).map
        Prod.snd
      = some { ctx with
          bank := (p.bankKeeper.SendCoins ctx.bank senderSeiAddr receiverSeiAddr
                    (NewCoin denom amount)).2
          calls := ctx.calls ++
            [BankCall.SendCoins senderSeiAddr receiverSeiAddr (NewCoin denom amount)] } ∧
    ((p.bankKeeper.SendCoins ctx.bank senderSeiAddr receiverSeiAddr (NewCoin denom amount)).1
        = none →
      (p.send ctx method
        [Arg.address fromAddr, Arg.address toAddr, Arg.string denom, Arg.bigInt amount]).map
        Prod.fst
        = some (Except.ok (abiWord 1))) ∧
    (∀ err, (p.bankKeeper.SendCoins ctx.bank senderSeiAddr receiverSeiAddr
          (NewCoin denom amount)).1 = some err →
      (p.send ctx method
        [Arg.address fromAddr, Arg.address toAddr, Arg.string denom, Arg.bigInt amount]).map
        Prod.fst
        = some (Except.error (Error.ledger err))) := by
  have hne : denom ≠ "" := validDenom_ne_empty denom hd
  have hamt : amount ≠ 0 := by omega
  have hcoin : coinConstructible denom amount = true := by
    have h1 : amount.natAbs < 2 ^ 256 := by omega
    have h2 : 0 ≤ amount := by omega
    unfold coinConstructible
    rw [hd, decide_eq_true h1, decide_eq_true h2]
    rfl
  simp only [Precompile.send, hne, hamt, if_false, Precompile.accAddressFromArg, hf, ht,
    Keeper.GetSeiAddress, hfa, hta, hcoin, not_true_eq_false, Context.SendCoins,
    pack_success_flag method hm]
  cases hr : (p.bankKeeper.SendCoins ctx.bank senderSeiAddr receiverSeiAddr
      (NewCoin denom amount)).1 with
  | none => simp [hr]
  | some e => simp [hr]

/-- C10 (witness).  On the example context, `send` of `1 usei` from the address `2` (native
account `[2]`, holding `5 usei`) to the address `3` (native account `[3]`) issues the one
transfer and returns the packed success flag. -/
theorem send_transfers_witness :
    (examplePrecompile.send (exampleState 0 0).ctx sendMethodAbi
        [Arg.address 2, Arg.address 3, Arg.string "usei", Arg.bigInt 1]).map
        (fun r => r.2.calls)
      = some [BankCall.SendCoins [2] [3] (NewCoin "usei" 1)] ∧
    (examplePrecompile.send (exampleState 0 0).ctx sendMethodAbi
        [Arg.address 2, Arg.address 3, Arg.string "usei", Arg.bigInt 1]).map Prod.fst
      = some (Except.ok (abiWord 1)) := by
  have h := send_transfers examplePrecompile (exampleState 0 0).ctx sendMethodAbi 2 3 [2] [3]
    "usei" 1 (by decide) (by decide) (by norm_num) (by decide) (by decide)
    (by simp [exampleState]) (by simp [exampleState]) rfl
  refine ⟨?_, h.2.1 ?_⟩
  · have h1 := congrArg (Option.map (fun c : Context Ledger => c.calls)) h.1
    simp only [Option.map_map, Option.map_some'] at h1
    rw [show (fun r : CallResult Ledger => r.2.calls)
      = (fun c : Context Ledger => c.calls) ∘ Prod.snd from rfl, h1]
    simp [exampleState]
  · simp [examplePrecompile, Ledger.keeper, Ledger.transfer, NewCoin, exampleState]

/-! ## Zero and negative amounts -/

/-- C11.  For every state and every address, associated or not, `AddBalance` and `SubBalance`
with the amount `0` return the state they were given: the balance entries, the Conservation
Counter, the native ledger with its call trace, and the recorded error are all unchanged. -/
theorem zero_amount_noop (s : StateDBImpl β) (evmAddr : Address) :
    s.AddBalance evmAddr 0 = s ∧ s.SubBalance evmAddr 0 = s := by
  constructor
  · rw [StateDBImpl.AddBalance]
    simp
  · rw [StateDBImpl.SubBalance]
    simp

theorem AddBalanceDelegations_of_nonneg (amt : Int) (h : 0 ≤ amt) :
    AddBalanceDelegations amt = 0 := by
  rw [AddBalanceDelegations]
  have h1 : ¬ amt < 0 := by omega
  simp [h1]

theorem SubBalanceDelegations_of_nonneg (amt : Int) (h : 0 ≤ amt) :
    SubBalanceDelegations amt = 0 := by
  rw [SubBalanceDelegations]
  have h1 : ¬ amt < 0 := by omega
  simp [h1]

theorem AddBalanceDelegations_of_neg (amt : Int) (h : amt < 0) :
    AddBalanceDelegations amt = 1 := by
  rw [AddBalanceDelegations]
  have h0 : amt ≠ 0 := by omega
  simp [h0, h, SubBalanceDelegations_of_nonneg (-amt) (by omega)]

theorem SubBalanceDelegations_of_neg (amt : Int) (h : amt < 0) :
    SubBalanceDelegations amt = 1 := by
  rw [SubBalanceDelegations]
  have h0 : amt ≠ 0 := by omega
  simp [h0, h, AddBalanceDelegations_of_nonneg (-amt) (by omega)]

/-- C12.  For every state, every address and every negative amount `a`, `AddBalance(address, a)`
is the state `SubBalance(address, -a)` and `SubBalance(address, a)` is the state
`AddBalance(address, -a)`; on every amount each operation delegates to the other at most once
(both are total functions: the delegation strictly decreases the measure that is `1` on negative
amounts and `0` otherwise). -/
theorem negative_amount_delegates (s : StateDBImpl β) (evmAddr : Address) (a : Int)
    (ha : a < 0) :
    s.AddBalance evmAddr a = s.SubBalance evmAddr (-a) ∧
    s.SubBalance evmAddr a = s.AddBalance evmAddr (-a) ∧
    (∀ amt : Int, AddBalanceDelegations amt ≤ 1 ∧ SubBalanceDelegations amt ≤ 1) := by
  have h0 : a ≠ 0 := by omega
  refine ⟨?_, ?_, ?_⟩
  · rw [StateDBImpl.AddBalance]
    simp [h0, ha]
  · rw [StateDBImpl.SubBalance]
    simp [h0, ha]
  · intro amt
    by_cases h : amt < 0
    · rw [AddBalanceDelegations_of_neg amt h, SubBalanceDelegations_of_neg amt h]
      exact ⟨le_refl 1, le_refl 1⟩
    · rw [AddBalanceDelegations_of_nonneg amt (by omega),
        SubBalanceDelegations_of_nonneg amt (by omega)]
      exact ⟨Nat.zero_le 1, Nat.zero_le 1⟩

/-- C12 (witness).  On the example state with balance entry `5` for the address `1`,
`AddBalance(1, -3)` is `SubBalance(1, 3)` and `SubBalance(1, -3)` is `AddBalance(1, 3)`. -/
theorem negative_amount_delegates_witness :
    (exampleState 0 5).AddBalance 1 (-3) = (exampleState 0 5).SubBalance 1 3 ∧
    (exampleState 0 5).SubBalance 1 (-3) = (exampleState 0 5).AddBalance 1 3 := by
  have h := negative_amount_delegates (exampleState 0 5) 1 (-3) (by decide)
  exact ⟨h.1, h.2.1⟩

/-! ## `AddBalance` on an associated address -/

/-- C13.  For an associated address and a positive amount, over a ledger whose `HasBalance` on
the pooled module account agrees with the balance it reports: when the pool holds less than
`amt` of the base denomination, `AddBalance` records the "insufficient module balance" error and
changes nothing else (no ledger call is issued); otherwise it issues exactly one ledger call, the
transfer of `amt` of the base denomination from the module account to the associated native
address, leaves the ledger as that transfer leaves it, and records the transfer's result. -/
theorem AddBalance_associated (s : StateDBImpl β) (evmAddr : Address) (seiAddr : AccAddress)
    (amt : Int) (hpos : 0 < amt) (ha : s.ctx.assoc evmAddr = some seiAddr)
    (hHas : s.k.bankKeeper.HasBalance s.ctx.bank (s.k.moduleAddress ModuleName)
              (NewCoin s.ctx.baseDenom amt) = decide (amt ≤ s.k.GetModuleBalance s.ctx)) :
    (s.k.GetModuleBalance s.ctx < amt →
      s.AddBalance evmAddr amt = { s with err := some Error.insufficientModuleBalance }) ∧
    (amt ≤ s.k.GetModuleBalance s.ctx →
      (s.AddBalance evmAddr amt).ctx.calls
        = s.ctx.calls ++ [BankCall.SendCoinsFromModuleToAccount ModuleName seiAddr
            (NewCoin s.ctx.baseDenom amt)] ∧
      (s.AddBalance evmAddr amt).ctx.bank
        = (s.k.bankKeeper.SendCoinsFromModuleToAccount s.ctx.bank ModuleName seiAddr
            (NewCoin s.ctx.baseDenom amt)).2 ∧
      (s.AddBalance evmAddr amt).err
        = (s.k.bankKeeper.SendCoinsFromModuleToAccount s.ctx.bank ModuleName seiAddr
            (NewCoin s.ctx.baseDenom amt)).1.map Error.ledger) := by
  rw [AddBalance_assoc s evmAddr amt hpos seiAddr ha, hHas]
  constructor
  · intro hlt
    have h : ¬ amt ≤ s.k.GetModuleBalance s.ctx := by omega
    simp [h]
  · intro hle
    simp [hle, Context.SendCoinsFromModuleToAccount]

/-- C13 (witness).  On the example state with pool `5`, `AddBalance(2, 3)` on the associated
address `2` issues the one transfer of `3 usei` from the module account to `[2]` and records its
success; with pool `0` it records the "insufficient module balance" error. -/
theorem AddBalance_associated_witness :
    ((exampleState 5 0).AddBalance 2 3).ctx.calls
        = [BankCall.SendCoinsFromModuleToAccount ModuleName [2] (NewCoin "usei" 3)] ∧
    ((exampleState 5 0).AddBalance 2 3).err = none ∧
    (exampleState 0 0).AddBalance 2 3
        = { exampleState 0 0 with err := some Error.insufficientModuleBalance } := by
  have h5 := (AddBalance_associated (exampleState 5 0) 2 [2] 3 (by decide)
    (by simp [exampleState])
    (by simp [exampleState, exampleKeeper, Ledger.keeper, NewCoin, Keeper.GetModuleBalance,
      Keeper.GetBaseDenom, exampleModuleAddress])).2
    (by simp [exampleState, exampleKeeper, Ledger.keeper, Keeper.GetModuleBalance,
      Keeper.GetBaseDenom, exampleModuleAddress])
  have h0 := (AddBalance_associated (exampleState 0 0) 2 [2] 3 (by decide)
    (by simp [exampleState])
    (by simp [exampleState, exampleKeeper, Ledger.keeper, NewCoin, Keeper.GetModuleBalance,
      Keeper.GetBaseDenom, exampleModuleAddress])).1
    (by simp [exampleState, exampleKeeper, Ledger.keeper, Keeper.GetModuleBalance,
      Keeper.GetBaseDenom, exampleModuleAddress])
  refine ⟨?_, ?_, h0⟩
  · rw [h5.1]
    simp [exampleState]
  · rw [h5.2.2]
    simp [exampleState, exampleKeeper, Ledger.keeper, Ledger.transfer, NewCoin,
      exampleModuleAddress]

/-! ## Malformed calls, `balance` and `RequiredGas` -/

/-- C14.  For every argument list whose length is not 4, or whose third argument is not a
non-empty string, or whose fourth argument is not an integer, `send` returns an error and no
output and leaves the context, hence the ledger and its call trace, unchanged; the error is the
arity, denom or amount error, and the outcome is the same whatever the association index holds
(no association is looked up). -/
theorem send_rejects_malformed (p : Precompile β) (ctx : Context β) (method : Method)
    (args : List Arg)
    (hbad : args.length ≠ 4 ∨ (∀ denom, args.get? 2 = some (Arg.string denom) → denom = "") ∨
      (∀ amount, args.get? 3 ≠ some (Arg.bigInt amount))) :
    ∃ err, (err = Error.sendArity ∨ err = Error.invalidDenom ∨ err = Error.invalidAmount) ∧
      p.send ctx method args = some (Except.error err, ctx) ∧
      ∀ assoc : Address → Option AccAddress,
        p.send { ctx with assoc := assoc } method args
          = some (Except.error err, { ctx with assoc := assoc }) := by
  match args, hbad with
  | [], _ => exact ⟨Error.sendArity, Or.inl rfl, rfl, fun _ => rfl⟩
  | [_], _ => exact ⟨Error.sendArity, Or.inl rfl, rfl, fun _ => rfl⟩
  | [_, _], _ => exact ⟨Error.sendArity, Or.inl rfl, rfl, fun _ => rfl⟩
  | [_, _, _], _ => exact ⟨Error.sendArity, Or.inl rfl, rfl, fun _ => rfl⟩
  | _ :: _ :: _ :: _ :: _ :: _, _ => exact ⟨Error.sendArity, Or.inl rfl, rfl, fun _ => rfl⟩
  | [arg0, arg1, arg2, arg3], hbad =>
    cases arg2 with
    | address a => exact ⟨Error.invalidDenom, Or.inr (Or.inl rfl), rfl, fun _ => rfl⟩
    | bigInt n => exact ⟨Error.invalidDenom, Or.inr (Or.inl rfl), rfl, fun _ => rfl⟩
    | bool b => exact ⟨Error.invalidDenom, Or.inr (Or.inl rfl), rfl, fun _ => rfl⟩
    | string denom =>
      by_cases hd : denom = ""
      · subst hd
        exact ⟨Error.invalidDenom, Or.inr (Or.inl rfl), by simp [Precompile.send],
          fun _ => by simp [Precompile.send]⟩
      · have hamt : ∀ amount, arg3 ≠ Arg.bigInt amount := by
          rcases hbad with h | h | h
          · exact absurd rfl h
          · exact absurd (h denom rfl) hd
          · intro amount hEq
            exact h amount (by simp [hEq])
        cases arg3 with
        | bigInt n => exact absurd rfl (hamt n)
        | address a =>
          exact ⟨Error.invalidAmount, Or.inr (Or.inr rfl), by simp [Precompile.send, hd],
            fun _ => by simp [Precompile.send, hd]⟩
        | string str =>
          exact ⟨Error.invalidAmount, Or.inr (Or.inr rfl), by simp [Precompile.send, hd],
            fun _ => by simp [Precompile.send, hd]⟩
        | bool b =>
          exact ⟨Error.invalidAmount, Or.inr (Or.inr rfl), by simp [Precompile.send, hd],
            fun _ => by simp [Precompile.send, hd]⟩

/-- C14 (witness).  On the example context, `send` with a boolean in place of the amount is
rejected with an error of the three kinds, whatever the association index holds. -/
theorem send_rejects_malformed_witness :
    ∃ err, (err = Error.sendArity ∨ err = Error.invalidDenom ∨ err = Error.invalidAmount) ∧
      examplePrecompile.send (exampleState 0 0).ctx sendMethodAbi
          [Arg.address 2, Arg.address 3, Arg.string "usei", Arg.bool true]
        = some (Except.error err, (exampleState 0 0).ctx) ∧
      ∀ assoc : Address → Option AccAddress,
        examplePrecompile.send { (exampleState 0 0).ctx with assoc := assoc } sendMethodAbi
            [Arg.address 2, Arg.address 3, Arg.string "usei", Arg.bool true]
          = some (Except.error err, { (exampleState 0 0).ctx with assoc := assoc }) :=
  send_rejects_malformed examplePrecompile (exampleState 0 0).ctx sendMethodAbi
    [Arg.address 2, Arg.address 3, Arg.string "usei", Arg.bool true]
    (Or.inr (Or.inr (fun amount => by simp)))

/-- C15.  A `balance` call whose first argument is a non-zero address associated with `seiAddr`:
with a non-empty string denom as second argument it returns the packed integer balance of that
denom which the ledger reports for `seiAddr` (one `uint256` word) and leaves the context, hence
the ledger and its call trace, unchanged; with a second argument that is the empty string or not
a string it returns the "invalid denom" error. -/
theorem balance_of_associated (p : Precompile β) (ctx : Context β) (method : Method)
    (addr : Address) (seiAddr : AccAddress) (rest : List Arg)
    (haddr : addr ≠ 0) (ha : ctx.assoc addr = some seiAddr)
    (hm : method.Outputs = [AbiType.uint256]) :
    (∀ denom : String, denom ≠ "" →
      p.balance ctx method (Arg.address addr :: Arg.string denom :: rest)
        = some (Except.ok (abiWord
            ((p.bankKeeper.GetBalance ctx.bank seiAddr denom).amount % 2 ^ 256).toNat), ctx)) ∧
    (∀ arg1 : Arg, (∀ denom : String, arg1 = Arg.string denom → denom = "") →
      p.balance ctx method (Arg.address addr :: arg1 :: rest)
        = some (Except.error Error.invalidDenom, ctx)) := by
  constructor
  · intro denom hd
    simp [Precompile.balance, Precompile.accAddressFromArg, Keeper.GetSeiAddress, haddr, ha, hd,
      Method.OutputsPack, hm, packArguments, packElement]
  · intro arg1 h1
    cases arg1 with
    | string denom =>
      have hd : denom = "" := h1 denom rfl
      simp [Precompile.balance, Precompile.accAddressFromArg, Keeper.GetSeiAddress, haddr, ha, hd]
    | address a =>
      simp [Precompile.balance, Precompile.accAddressFromArg, Keeper.GetSeiAddress, haddr, ha]
    | bigInt n =>
      simp [Precompile.balance, Precompile.accAddressFromArg, Keeper.GetSeiAddress, haddr, ha]
    | bool b =>
      simp [Precompile.balance, Precompile.accAddressFromArg, Keeper.GetSeiAddress, haddr, ha]

/-- C15 (witness).  On the example context, `balance(2, "usei")` returns the word holding the
`5 usei` of the native account `[2]`. -/
theorem balance_of_associated_witness :
    examplePrecompile.balance (exampleState 0 0).ctx balanceMethodAbi
        [Arg.address 2, Arg.string "usei"]
      = some (Except.ok (abiWord 5), (exampleState 0 0).ctx) := by
  have h := (balance_of_associated examplePrecompile (exampleState 0 0).ctx balanceMethodAbi 2
    [2] [] (by decide) (by simp [exampleState]) rfl).1 "usei" (by decide)
  rw [h]
  simp [examplePrecompile, Ledger.keeper, exampleState]

/-- C16.  For every input that carries a method selector (at least four bytes): when the ABI
does not recognise the selector, `RequiredGas` returns `0`; when it recognises it as `method`,
`RequiredGas` returns the base gas cost of the input computed with the transaction flag
`IsTransaction(method.Name)`, which is `true` when the method is `send` and `false` when it is
`balance`. -/
theorem RequiredGas_by_selector (p : Precompile β) (input : Bytes) (h4 : 4 ≤ input.length) :
    (p.common.ABI.MethodById (input.take 4) = none → p.RequiredGas input = some 0) ∧
    (∀ method : Method, p.common.ABI.MethodById (input.take 4) = some method →
      p.RequiredGas input
        = some (p.common.RequiredGas input (Precompile.IsTransaction method.Name)) ∧
      (method.Name = SendMethod →
        p.RequiredGas input = some (p.common.RequiredGas input true)) ∧
      (method.Name = BalanceMethod →
        p.RequiredGas input = some (p.common.RequiredGas input false))) := by
  have hlen : ¬ input.length < 4 := by omega
  constructor
  · intro hnone
    simp [Precompile.RequiredGas, hlen, hnone]
  · intro method hsome
    refine ⟨by simp [Precompile.RequiredGas, hlen, hsome], ?_, ?_⟩
    · intro hname
      simp [Precompile.RequiredGas, hlen, hsome, hname, Precompile.IsTransaction]
    · intro hname
      simp [Precompile.RequiredGas, hlen, hsome, hname, Precompile.IsTransaction, SendMethod,
        BalanceMethod]

/-- C16 (witness).  On the example precompile, the unknown selector `[9, 9, 9, 9]` costs `0`. -/
theorem RequiredGas_by_selector_witness :
    examplePrecompile.RequiredGas [9, 9, 9, 9, 0] = some 0 :=
  (RequiredGas_by_selector examplePrecompile [9, 9, 9, 9, 0] (by decide)).1
    (by simp [examplePrecompile, exampleABI])

/-- An input shorter than four bytes has no selector: slicing it panics. -/
theorem RequiredGas_short_input (p : Precompile β) (input : Bytes) (h : input.length < 4) :
    p.RequiredGas input = none := by
  simp [Precompile.RequiredGas, h]

/-! ## The pending-nonce sequencer: the scan -/

/-- A list cannot hold more consecutive integers than it has entries. -/
theorem not_all_taken (l : List Nat) (n : Nat)
    (h : ∀ m, n ≤ m → m < n + (l.length + 1) → m ∈ l) : False := by
  have hsub : Finset.Ico n (n + (l.length + 1)) ⊆ l.toFinset := by
    intro m hm
    rw [Finset.mem_Ico] at hm
    rw [List.mem_toFinset]
    exact h m hm.1 hm.2
  have h1 := Finset.card_le_card hsub
  have h2 := List.toFinset_card_le l
  rw [Nat.card_Ico] at h1
  omega

theorem scan_spec (pending : List Nat) (fuel n : Nat) :
    n ≤ NonceKeeper.scan pending fuel n ∧
    (∀ m, n ≤ m → m < NonceKeeper.scan pending fuel n → m ∈ pending) ∧
    (NonceKeeper.scan pending fuel n ∉ pending ∨ NonceKeeper.scan pending fuel n = n + fuel) := by
  induction fuel generalizing n with
  | zero =>
    simp only [NonceKeeper.scan]
    exact ⟨le_refl n, fun m h1 h2 => absurd h1 (by omega), Or.inr rfl⟩
  | succ fuel ih =>
    simp only [NonceKeeper.scan]
    by_cases hn : n ∈ pending
    · rw [if_pos hn]
      obtain ⟨h1, h2, h3⟩ := ih (n + 1)
      refine ⟨by omega, ?_, ?_⟩
      · intro m hm1 hm2
        by_cases hmn : m = n
        · rw [hmn]
          exact hn
        · exact h2 m (by omega) hm2
      · rcases h3 with h | h
        · exact Or.inl h
        · exact Or.inr (by omega)
    · rw [if_neg hn]
      exact ⟨le_refl n, fun m h1 h2 => absurd h1 (by omega), Or.inl hn⟩

/-- With one step more than the collection has entries the scan stops at an untaken
candidate. -/
theorem scan_not_taken (pending : List Nat) (n : Nat) :
    NonceKeeper.scan pending (pending.length + 1) n ∉ pending := by
  obtain ⟨_, h2, h3⟩ := scan_spec pending (pending.length + 1) n
  rcases h3 with h | h
  · exact h
  · exact absurd (fun m hm1 hm2 => h2 m hm1 (by omega)) (not_all_taken pending n)

theorem CalculateNextNonce_true (k : NonceKeeper) (addr : Address) :
    k.CalculateNextNonce addr true
      = NonceKeeper.scan (k.pendingNonces addr) ((k.pendingNonces addr).length + 1)
          (k.GetNonce addr) := by
  simp [NonceKeeper.CalculateNextNonce]

/-- The scan is characterised by its result: the untaken candidate below which every candidate
from the committed nonce on is taken. -/
theorem CalculateNextNonce_eq_of (k : NonceKeeper) (addr : Address) (r : Nat)
    (h1 : k.GetNonce addr ≤ r) (h2 : r ∉ k.pendingNonces addr)
    (h3 : ∀ m, k.GetNonce addr ≤ m → m < r → m ∈ k.pendingNonces addr) :
    k.CalculateNextNonce addr true = r := by
  rw [CalculateNextNonce_true]
  obtain ⟨g1, g2, _⟩ := scan_spec (k.pendingNonces addr) ((k.pendingNonces addr).length + 1)
    (k.GetNonce addr)
  have g3 := scan_not_taken (k.pendingNonces addr) (k.GetNonce addr)
  rcases lt_trichotomy
      (NonceKeeper.scan (k.pendingNonces addr) ((k.pendingNonces addr).length + 1)
        (k.GetNonce addr)) r with hlt | heq | hgt
  · exact absurd (h3 _ g1 hlt) g3
  · exact heq
  · exact absurd (g2 r h1 hgt) h2

/-- The result of the scan does not depend on the number of steps it is given, once that number
exceeds the size of the collection. -/
theorem scan_fuel_irrelevant (pending : List Nat) (fuel n : Nat) (hf : pending.length < fuel) :
    NonceKeeper.scan pending fuel n = NonceKeeper.scan pending (pending.length + 1) n := by
  obtain ⟨f1, f2, f3⟩ := scan_spec pending fuel n
  obtain ⟨g1, g2, _⟩ := scan_spec pending (pending.length + 1) n
  have g3 := scan_not_taken pending n
  have f4 : NonceKeeper.scan pending fuel n ∉ pending := by
    rcases f3 with h | h
    · exact h
    · exact absurd (fun m hm1 hm2 => f2 m hm1 (by omega)) (not_all_taken pending n)
  rcases lt_trichotomy (NonceKeeper.scan pending fuel n)
      (NonceKeeper.scan pending (pending.length + 1) n) with hlt | heq | hgt
  · exact absurd (g2 _ f1 hlt) f4
  · exact heq
  · exact absurd (f2 _ g1 hgt) g3

/-! ## The pending-nonce sequencer: next nonce -/

/-- C17.  For every account and every collection of pending records, with `base` the committed
nonce: `CalculateNextNonce(address, pending = true)` is at least `base`, is held by no pending
record of the account, and is at most every `n >= base` that no record holds, that is, it is the
least such `n`.  In particular it is `base` when no record holds `base`, and `base + cnt` when
the records hold exactly `base`, ..., `base + cnt - 1`. -/
theorem CalculateNextNonce_pending_least (k : NonceKeeper) (addr : Address) :
    k.GetNonce addr ≤ k.CalculateNextNonce addr true ∧
    k.CalculateNextNonce addr true ∉ k.pendingNonces addr ∧
    (∀ n, k.GetNonce addr ≤ n → n ∉ k.pendingNonces addr → k.CalculateNextNonce addr true ≤ n) ∧
    (k.GetNonce addr ∉ k.pendingNonces addr → k.CalculateNextNonce addr true = k.GetNonce addr) ∧
    (∀ cnt, (∀ n, n ∈ k.pendingNonces addr ↔ (k.GetNonce addr ≤ n ∧ n < k.GetNonce addr + cnt)) →
      k.CalculateNextNonce addr true = k.GetNonce addr + cnt) := by
  have hmin : ∀ n, k.GetNonce addr ≤ n → n ∉ k.pendingNonces addr →
      k.CalculateNextNonce addr true ≤ n := by
    intro n hn1 hn2
    rw [CalculateNextNonce_true]
    by_contra hlt
    exact hn2 ((scan_spec (k.pendingNonces addr) ((k.pendingNonces addr).length + 1)
      (k.GetNonce addr)).2.1 n hn1 (by omega))
  refine ⟨?_, ?_, hmin, ?_, ?_⟩
  · rw [CalculateNextNonce_true]
    exact (scan_spec _ _ _).1
  · rw [CalculateNextNonce_true]
    exact scan_not_taken _ _
  · intro h
    exact CalculateNextNonce_eq_of k addr _ (le_refl _) h (fun m h1 h2 => absurd h1 (by omega))
  · intro cnt h
    exact CalculateNextNonce_eq_of k addr _ (by omega)
      (fun hmem => by have := (h _).mp hmem; omega)
      (fun m h1 h2 => (h m).mpr ⟨h1, h2⟩)

/-! ## The pending-nonce sequencer: frame lemmas -/

theorem apply_committed (k : NonceKeeper) (op : NonceOp) :
    (k.apply op).committed = k.committed := by
  cases op with
  | AddPendingNonce key addr nonce => rfl
  | CompletePendingNonce key =>
    simp only [NonceKeeper.apply, NonceKeeper.CompletePendingNonce]
    split <;> rfl
  | ExpirePendingNonce key =>
    simp only [NonceKeeper.apply, NonceKeeper.ExpirePendingNonce]
    split <;> rfl

theorem applyAll_committed (ops : List NonceOp) (k : NonceKeeper) :
    (k.applyAll ops).committed = k.committed := by
  induction ops generalizing k with
  | nil => rfl
  | cons op ops ih =>
    simp only [NonceKeeper.applyAll, List.foldl_cons] at ih ⊢
    rw [ih (k.apply op), apply_committed]

/-- C18.  For every account, `CalculateNextNonce(address, pending = false)` is the committed
nonce, `0` when none is stored, and it is the same after any sequence of additions, completions
and expirations of pending records. -/
theorem CalculateNextNonce_latest (k : NonceKeeper) (addr : Address) (ops : List NonceOp) :
    k.CalculateNextNonce addr false = (k.committed addr).getD 0 ∧
    (k.committed addr = none → k.CalculateNextNonce addr false = 0) ∧
    (k.applyAll ops).CalculateNextNonce addr false = k.CalculateNextNonce addr false := by
  refine ⟨by simp [NonceKeeper.CalculateNextNonce, NonceKeeper.GetNonce], ?_, ?_⟩
  · intro h
    simp [NonceKeeper.CalculateNextNonce, NonceKeeper.GetNonce, h]
  · simp [NonceKeeper.CalculateNextNonce, NonceKeeper.GetNonce, applyAll_committed]

/-- C18 (witness).  A fresh sequencer returns `0` for the latest nonce of the address `1`. -/
theorem CalculateNextNonce_latest_witness :
    NonceKeeper.empty.CalculateNextNonce 1 false = 0 :=
  (CalculateNextNonce_latest NonceKeeper.empty 1 []).2.1 rfl

/-- C17 (witness).  With committed nonce `50` and pending nonces `50` and `51` the next pending
nonce is `52`. -/
theorem CalculateNextNonce_pending_least_witness :
    exampleNonceKeeper.CalculateNextNonce 1 true = exampleNonceKeeper.GetNonce 1 + 2 :=
  (CalculateNextNonce_pending_least exampleNonceKeeper 1).2.2.2.2 2 (fun n => by
    simp only [exampleNonceKeeper, NonceKeeper.AddPendingNonce, NonceKeeper.SetNonce,
      NonceKeeper.empty, NonceKeeper.GetNonce, if_true, List.nil_append, List.cons_append,
      List.mem_cons, List.mem_singleton, List.not_mem_nil, or_false, Option.getD_some]
    omega)

/-- The deterministic cases of `TestKeeper_CalculateNextNonce` in `keeper_test.go`, with the
account `1` and the identifiers `10` and `11`, give the nonces the test expects. -/
theorem keeper_test_cases :
    NonceKeeper.empty.CalculateNextNonce 1 false = 0 ∧
    (NonceKeeper.empty.SetNonce 1 50).CalculateNextNonce 1 false = 50 ∧
    exampleNonceKeeper.CalculateNextNonce 1 false = 50 ∧
    exampleNonceKeeper.CalculateNextNonce 1 true = 52 ∧
    (((NonceKeeper.empty.SetNonce 1 50).AddPendingNonce 10 1 50).AddPendingNonce 11 1
        52).CalculateNextNonce 1 true = 51 ∧
    ((exampleNonceKeeper.CompletePendingNonce 10).CompletePendingNonce 11).CalculateNextNonce 1
        true = 52 ∧
    (exampleNonceKeeper.ExpirePendingNonce 10).CalculateNextNonce 1 true = 50 ∧
    (((NonceKeeper.empty.SetNonce 1 50).AddPendingNonce 10 1 51).AddPendingNonce 11 1
        52).CalculateNextNonce 1 true = 50 := by
  refine ⟨?_, ?_, ?_, ?_, ?_, ?_, ?_, ?_⟩ <;> decide

/-! ## The pending-nonce sequencer: completion and expiration -/

theorem AddPendingNonce_pendingNonces_self (k : NonceKeeper) (key : TxKey) (addr : Address)
    (nonce : Nat) :
    (k.AddPendingNonce key addr nonce).pendingNonces addr = k.pendingNonces addr ++ [nonce] := by
  simp [NonceKeeper.AddPendingNonce]

theorem registerFrom_pendingNonces (keys : List TxKey) (k : NonceKeeper) (addr : Address)
    (nonce : Nat) :
    (k.registerFrom addr nonce keys).pendingNonces addr
      = k.pendingNonces addr ++ List.range' nonce keys.length := by
  induction keys generalizing k nonce with
  | nil => simp [NonceKeeper.registerFrom]
  | cons key keys ih =>
    simp only [NonceKeeper.registerFrom, List.length_cons]
    rw [ih, AddPendingNonce_pendingNonces_self, List.range'_succ, List.append_assoc]
    rfl

theorem registerFrom_committed (keys : List TxKey) (k : NonceKeeper) (addr : Address)
    (nonce : Nat) :
    (k.registerFrom addr nonce keys).committed = k.committed := by
  induction keys generalizing k nonce with
  | nil => rfl
  | cons key keys ih =>
    simp only [NonceKeeper.registerFrom]
    rw [ih]
    rfl

theorem CompletePendingNonce_frame (k : NonceKeeper) (key : TxKey) :
    (k.CompletePendingNonce key).pendingNonces = k.pendingNonces ∧
    (k.CompletePendingNonce key).committed = k.committed := by
  simp only [NonceKeeper.CompletePendingNonce]
  split <;> exact ⟨rfl, rfl⟩

theorem completeAll_frame (keys : List TxKey) (k : NonceKeeper) :
    (k.completeAll keys).pendingNonces = k.pendingNonces ∧
    (k.completeAll keys).committed = k.committed := by
  induction keys generalizing k with
  | nil => exact ⟨rfl, rfl⟩
  | cons key keys ih =>
    simp only [NonceKeeper.completeAll, List.foldl_cons] at ih ⊢
    obtain ⟨h1, h2⟩ := ih (k.CompletePendingNonce key)
    obtain ⟨g1, g2⟩ := CompletePendingNonce_frame k key
    exact ⟨h1.trans g1, h2.trans g2⟩

/-- C19.  For every account without pending records and with committed nonce `base`: after
`AddPendingNonce` has registered `base`, ..., `base + cnt - 1` under the given identifiers and
`CompletePendingNonce` has been called on every one of them, the committed nonce is still `base`
and `CalculateNextNonce(address, pending = true)` is `base + cnt`. -/
theorem completion_keeps_gap_closed (k : NonceKeeper) (addr : Address) (keys : List TxKey)
    (hdistinct : keys.Nodup) (hempty : k.pendingNonces addr = []) :
    ((k.registerFrom addr (k.GetNonce addr) keys).completeAll keys).GetNonce addr
      = k.GetNonce addr ∧
    ((k.registerFrom addr (k.GetNonce addr) keys).completeAll keys).CalculateNextNonce addr true
      = k.GetNonce addr + keys.length := by
  have _ := hdistinct
  have hbase : ((k.registerFrom addr (k.GetNonce addr) keys).completeAll keys).GetNonce addr
      = k.GetNonce addr := by
    simp only [NonceKeeper.GetNonce]
    rw [(completeAll_frame keys _).2, registerFrom_committed]
  have hpend : ((k.registerFrom addr (k.GetNonce addr) keys).completeAll keys).pendingNonces addr
      = List.range' (k.GetNonce addr) keys.length := by
    rw [(completeAll_frame keys _).1, registerFrom_pendingNonces, hempty, List.nil_append]
  refine ⟨hbase, ?_⟩
  apply CalculateNextNonce_eq_of
  · rw [hbase]
    omega
  · rw [hpend, List.mem_range'_1]
    omega
  · intro m h1 h2
    rw [hbase] at h1
    rw [hpend, List.mem_range'_1]
    exact ⟨h1, h2⟩

/-- C19 (witness).  With committed nonce `50`, after the nonces `50` and `51` are registered
under the identifiers `10` and `11` and both are completed, the next pending nonce is `52`. -/
theorem completion_keeps_gap_closed_witness :
    (((NonceKeeper.empty.SetNonce 1 50).registerFrom 1 50 [10, 11]).completeAll
        [10, 11]).CalculateNextNonce 1 true = 52 :=
  (completion_keeps_gap_closed (NonceKeeper.empty.SetNonce 1 50) 1 [10, 11] (by decide) rfl).2

/-- C20.  For every account with committed nonce `base` whose pending records hold exactly
`base`, ..., `base + cnt - 1`, each once: after `ExpirePendingNonce` on the identifier whose
record holds the nonce `n` of that account, `base <= n < base + cnt`,
`CalculateNextNonce(address, pending = true)` is `n`. -/
theorem expiration_reopens_gap (k : NonceKeeper) (addr : Address) (key : TxKey)
    (base cnt n : Nat) (hbase : k.GetNonce addr = base)
    (hexact : (k.pendingNonces addr).Perm (List.range' base cnt))
    (hkey : k.keyToNonce key = some { address := addr, nonce := n })
    (hn : base ≤ n ∧ n < base + cnt) :
    (k.ExpirePendingNonce key).CalculateNextNonce addr true = n := by
  have hnodup : (k.pendingNonces addr).Nodup := hexact.nodup_iff.mpr (List.nodup_range' base cnt)
  have hpend : (k.ExpirePendingNonce key).pendingNonces addr = (k.pendingNonces addr).erase n := by
    simp [NonceKeeper.ExpirePendingNonce, hkey]
  have hb : (k.ExpirePendingNonce key).GetNonce addr = base := by
    simp [NonceKeeper.ExpirePendingNonce, hkey, NonceKeeper.GetNonce] at hbase ⊢
    exact hbase
  apply CalculateNextNonce_eq_of
  · rw [hb]
    exact hn.1
  · rw [hpend]
    exact hnodup.not_mem_erase
  · intro m h1 h2
    rw [hb] at h1
    rw [hpend]
    have hne : m ≠ n := by omega
    rw [List.mem_erase_of_ne hne, hexact.mem_iff, List.mem_range'_1]
    omega

/-- C20 (witness).  With committed nonce `50` and pending nonces `50` and `51` under the
identifiers `10` and `11`, after the identifier `10` expires the next pending nonce is `50`. -/
theorem expiration_reopens_gap_witness :
    (exampleNonceKeeper.ExpirePendingNonce 10).CalculateNextNonce 1 true = 50 :=
  expiration_reopens_gap exampleNonceKeeper 1 10 50 2 50 rfl (by decide) rfl (by decide)

/-! ## The pending-nonce sequencer: unknown identifiers -/

/-- C21.  For every sequencer state and every transaction identifier without a pending record,
`CompletePendingNonce` and `ExpirePendingNonce` return the state unchanged; and on every
identifier, applying either operation a second time gives the state the first application
gave. -/
theorem unknown_identifier_noop (k : NonceKeeper) (key : TxKey) :
    (k.keyToNonce key = none →
      k.CompletePendingNonce key = k ∧ k.ExpirePendingNonce key = k) ∧
    (k.CompletePendingNonce key).CompletePendingNonce key = k.CompletePendingNonce key ∧
    (k.ExpirePendingNonce key).ExpirePendingNonce key = k.ExpirePendingNonce key := by
  refine ⟨?_, ?_, ?_⟩
  · intro h
    simp [NonceKeeper.CompletePendingNonce, NonceKeeper.ExpirePendingNonce, h]
  · cases h : k.keyToNonce key with
    | none => simp [NonceKeeper.CompletePendingNonce, h]
    | some r => simp [NonceKeeper.CompletePendingNonce, h]
  · cases h : k.keyToNonce key with
    | none => simp [NonceKeeper.ExpirePendingNonce, h]
    | some r => simp [NonceKeeper.ExpirePendingNonce, h]

/-- C21 (witness).  On the example sequencer the identifier `12` has no record: completing or
expiring it changes nothing. -/
theorem unknown_identifier_noop_witness :
    exampleNonceKeeper.CompletePendingNonce 12 = exampleNonceKeeper ∧
    exampleNonceKeeper.ExpirePendingNonce 12 = exampleNonceKeeper :=
  (unknown_identifier_noop exampleNonceKeeper 12).1 (by decide)

/-! ## The byte encoding of the Conservation Counter -/

/-- C22.  For every state, every key and every integer `delta`: after
`AddBigIntTransientModuleState(delta, key)`, `GetBigIntTransientModuleState(key)` is the value
read before plus `delta`, whatever the sign and magnitude of either; an absent key reads as `0`,
so every integer `old` is read back after being added to an absent key. -/
theorem transient_counter_roundtrip (s : StateDBImpl β) (delta : Int) (key : Bytes) :
    (s.AddBigIntTransientModuleState delta key).GetBigIntTransientModuleState key
      = s.GetBigIntTransientModuleState key + delta ∧
    (s.ctx.transient key = none → s.GetBigIntTransientModuleState key = 0) ∧
    (s.ctx.transient key = none → ∀ old : Int,
      ((s.AddBigIntTransientModuleState old key).AddBigIntTransientModuleState delta
        key).GetBigIntTransientModuleState key = old + delta) := by
  have habsent : s.ctx.transient key = none → s.GetBigIntTransientModuleState key = 0 := by
    intro h
    simp [StateDBImpl.GetBigIntTransientModuleState, h]
  refine ⟨GetBigInt_AddBigInt s delta key, habsent, ?_⟩
  intro h old
  rw [GetBigInt_AddBigInt, GetBigInt_AddBigInt, habsent h]
  ring

/-- C22 (witness).  On the example state, whose transient store is empty, adding `-(2 ^ 70)` and
then `5` under the counter's key reads back `-(2 ^ 70) + 5`. -/
theorem transient_counter_roundtrip_witness :
    (((exampleState 0 0).AddBigIntTransientModuleState (-(2 ^ 70))
        TotalUnassociatedBalanceKey).AddBigIntTransientModuleState 5
        TotalUnassociatedBalanceKey).GetBigIntTransientModuleState TotalUnassociatedBalanceKey
      = -(2 ^ 70) + 5 :=
  (transient_counter_roundtrip (exampleState 0 0) 5 TotalUnassociatedBalanceKey).2.2
    (by simp [exampleState]) (-(2 ^ 70))

/-! ## Mutations on associated addresses -/

theorem SubBalance_pos_assoc_frame (s : StateDBImpl β) (evmAddr : Address) (amt : Int)
    (h : 0 < amt) (seiAddr : AccAddress) (ha : s.ctx.assoc evmAddr = some seiAddr) :
    s.onlyLedgerAndErrChanged (s.SubBalance evmAddr amt) := by
  rw [SubBalance_assoc s evmAddr amt h seiAddr ha]
  rfl

theorem AddBalance_pos_assoc_frame (s : StateDBImpl β) (evmAddr : Address) (amt : Int)
    (h : 0 < amt) (seiAddr : AccAddress) (ha : s.ctx.assoc evmAddr = some seiAddr) :
    s.onlyLedgerAndErrChanged (s.AddBalance evmAddr amt) := by
  rw [AddBalance_assoc s evmAddr amt h seiAddr ha]
  split <;> rfl

theorem onlyLedgerAndErrChanged_refl (s : StateDBImpl β) : s.onlyLedgerAndErrChanged s := rfl

/-- C23.  For every associated address and every amount, positive, zero or negative,
`AddBalance` and `SubBalance` leave the Conservation Counter and every stored balance entry
unchanged; the resulting state differs from the given one at most in the native ledger (with the
trace of calls issued to it) and in the recorded error. -/
theorem associated_mutation_frame (s : StateDBImpl β) (evmAddr : Address)
    (seiAddr : AccAddress) (amt : Int) (ha : s.ctx.assoc evmAddr = some seiAddr) :
    ((s.AddBalance evmAddr amt).counter = s.counter ∧
      (s.AddBalance evmAddr amt).ctx.balances = s.ctx.balances ∧
      s.onlyLedgerAndErrChanged (s.AddBalance evmAddr amt)) ∧
    ((s.SubBalance evmAddr amt).counter = s.counter ∧
      (s.SubBalance evmAddr amt).ctx.balances = s.ctx.balances ∧
      s.onlyLedgerAndErrChanged (s.SubBalance evmAddr amt)) := by
  have hframe : ∀ s1 : StateDBImpl β, s.onlyLedgerAndErrChanged s1 →
      s1.counter = s.counter ∧ s1.ctx.balances = s.ctx.balances ∧
        s.onlyLedgerAndErrChanged s1 := by
    intro s1 h1
    refine ⟨?_, ?_, h1⟩
    · rw [h1]
      rfl
    · rw [h1]
  have hadd : s.onlyLedgerAndErrChanged (s.AddBalance evmAddr amt) := by
    rcases lt_trichotomy amt 0 with hneg | hzero | hpos
    · rw [AddBalance_neg s evmAddr amt hneg]
      exact SubBalance_pos_assoc_frame s evmAddr (-amt) (by omega) seiAddr ha
    · subst hzero
      rw [AddBalance_zero]
      exact onlyLedgerAndErrChanged_refl s
    · exact AddBalance_pos_assoc_frame s evmAddr amt hpos seiAddr ha
  have hsub : s.onlyLedgerAndErrChanged (s.SubBalance evmAddr amt) := by
    rcases lt_trichotomy amt 0 with hneg | hzero | hpos
    · rw [SubBalance_neg s evmAddr amt hneg]
      exact AddBalance_pos_assoc_frame s evmAddr (-amt) (by omega) seiAddr ha
    · subst hzero
      rw [SubBalance_zero]
      exact onlyLedgerAndErrChanged_refl s
    · exact SubBalance_pos_assoc_frame s evmAddr amt hpos seiAddr ha
  exact ⟨hframe _ hadd, hframe _ hsub⟩

/-- C23 (witness).  On the example state with balance entry `5` for the address `1`,
`SubBalance(2, 3)` on the associated address `2` leaves the counter and the balance entries as
they were. -/
theorem associated_mutation_frame_witness :
    ((exampleState 0 5).SubBalance 2 3).counter = (exampleState 0 5).counter ∧
    ((exampleState 0 5).SubBalance 2 3).ctx.balances = (exampleState 0 5).ctx.balances :=
  ⟨(associated_mutation_frame (exampleState 0 5) 2 [2] 3 (by simp [exampleState])).2.1,
   (associated_mutation_frame (exampleState 0 5) 2 [2] 3 (by simp [exampleState])).2.2.1⟩

/-! ## Arity of `balance` and address resolution -/

/-- C24 (the code at the failing inputs).  On the example context, `balance` called with no
argument panics on `args[0]`, and `balance` called with the single argument `2`, an associated
address, panics on `args[1]`; `send` on the same two argument lists returns its arity error. -/
theorem balance_short_arguments_panic :
    examplePrecompile.balance (exampleState 0 0).ctx balanceMethodAbi [] = none ∧
    examplePrecompile.balance (exampleState 0 0).ctx balanceMethodAbi [Arg.address 2] = none ∧
    examplePrecompile.send (exampleState 0 0).ctx sendMethodAbi []
      = some (Except.error Error.sendArity, (exampleState 0 0).ctx) ∧
    examplePrecompile.send (exampleState 0 0).ctx sendMethodAbi [Arg.address 2]
      = some (Except.error Error.sendArity, (exampleState 0 0).ctx) := by
  refine ⟨rfl, ?_, rfl, rfl⟩
  simp [Precompile.balance, Precompile.accAddressFromArg, Keeper.GetSeiAddress, exampleState]

/-- With at least two arguments `balance` does return an output or an error. -/
theorem balance_total_of_two (p : Precompile β) (ctx : Context β) (method : Method)
    (arg0 arg1 : Arg) (rest : List Arg) :
    ∃ r, p.balance ctx method (arg0 :: arg1 :: rest) = some r := by
  simp only [Precompile.balance]
  split
  · exact ⟨_, rfl⟩
  · split
    · split
      · exact ⟨_, rfl⟩
      · exact ⟨_, rfl⟩
    · exact ⟨_, rfl⟩

/-- C25.  `accAddressFromArg` returns the native address `seiAddr` exactly when its argument is
a non-zero EVM address that the association index maps to `seiAddr`; an argument that is not an
address, or is the all-zero address, gives the "invalid addr" error whatever the association
index holds (no association is looked up); a non-zero address without association gives the
association error. -/
theorem accAddressFromArg_cases (p : Precompile β) (ctx : Context β) (arg : Arg) :
    (∀ seiAddr : AccAddress,
      p.accAddressFromArg ctx arg = Except.ok seiAddr ↔
        ∃ addr : Address, arg = Arg.address addr ∧ addr ≠ 0 ∧ ctx.assoc addr = some seiAddr) ∧
    ((∀ addr : Address, arg = Arg.address addr → addr = 0) →
      ∀ assoc : Address → Option AccAddress,
        p.accAddressFromArg { ctx with assoc := assoc } arg = Except.error Error.invalidAddr) ∧
    (∀ addr : Address, arg = Arg.address addr → addr ≠ 0 → ctx.assoc addr = none →
      p.accAddressFromArg ctx arg = Except.error Error.noAssociation) := by
  cases arg with
  | address a =>
    by_cases h0 : a = 0
    · subst h0
      refine ⟨fun seiAddr => ?_, fun _ _ => ?_, fun addr h1 h2 _ => ?_⟩
      · simp [Precompile.accAddressFromArg]
      · simp [Precompile.accAddressFromArg]
      · cases h1
        exact absurd rfl h2
    · refine ⟨fun seiAddr => ?_, fun h _ => absurd (h a rfl) h0, fun addr h1 _ h3 => ?_⟩
      · cases hassoc : ctx.assoc a with
        | none => simp [Precompile.accAddressFromArg, Keeper.GetSeiAddress, h0, hassoc]
        | some found =>
          simp [Precompile.accAddressFromArg, Keeper.GetSeiAddress, h0, hassoc]
      · cases h1
        simp [Precompile.accAddressFromArg, Keeper.GetSeiAddress, h0, h3]
  | string str =>
    exact ⟨fun _ => by simp [Precompile.accAddressFromArg],
      fun _ _ => by simp [Precompile.accAddressFromArg], fun _ h1 => by cases h1⟩
  | bigInt n =>
    exact ⟨fun _ => by simp [Precompile.accAddressFromArg],
      fun _ _ => by simp [Precompile.accAddressFromArg], fun _ h1 => by cases h1⟩
  | bool b =>
    exact ⟨fun _ => by simp [Precompile.accAddressFromArg],
      fun _ _ => by simp [Precompile.accAddressFromArg], fun _ h1 => by cases h1⟩

/-- C25 (witness).  On the example context the address `2` resolves to the native account `[2]`,
and the address `1`, which has no association, gives the association error. -/
theorem accAddressFromArg_cases_witness :
    examplePrecompile.accAddressFromArg (exampleState 0 0).ctx (Arg.address 2) = Except.ok [2] ∧
    examplePrecompile.accAddressFromArg (exampleState 0 0).ctx (Arg.address 1)
      = Except.error Error.noAssociation :=
  ⟨((accAddressFromArg_cases examplePrecompile (exampleState 0 0).ctx (Arg.address 2)).1 [2]).mpr
      ⟨2, rfl, by decide, by simp [exampleState]⟩,
   (accAddressFromArg_cases examplePrecompile (exampleState 0 0).ctx (Arg.address 1)).2.2 1 rfl
      (by decide) (by simp [exampleState])⟩

end SeiEvm
